import Mathlib

/-!
Verification of the ThreadWin thread-lifecycle coordinator
(endurodave/ThreadWin, `src/main.cpp` together with the ThreadWin
implementation shown in the repository's documentation section:
`ThreadWin::CreateThread`, `ThreadWin::RunProcess`,
`ThreadWin::StartAllThreads`, `ThreadWin::ExitThread`, and the demo
driver `main` / `WorkerThread::Process`).

Two embeddings are developed:

* `SeqModel` — a direct functional translation of the coordinator-side
  member functions (`CreateThread`, `ExitThread`, `StartAllThreads`)
  acting on the members of one `ThreadWin` object.  Blocking waits are
  parameterised by their outcome (success / timeout), and the
  fault-reporting collaborator (`ASSERT_TRUE`, from the out-of-scope
  Fault module) is modelled as recording a fault and continuing, so that
  the return values of the source functions stay observable.

* `SysModel` — a small-step interleaving semantics of the whole program:
  one sequential coordinator thread executing a script of API calls
  (mirroring `main`), one worker per `ThreadWin` object executing
  `RunProcess` followed by `WorkerThread::Process`, and a kernel holding
  the Win32 event objects (including the fact that the events are
  *named* objects: `CreateEvent` with a name that is already registered
  returns the existing object, exactly as on Win32).
-/

namespace ThreadWin

/-! ## Sequential model of the coordinator-side member functions -/

namespace SeqModel

/-- A Win32 HANDLE value as it appears in the source: the members are
initialised to `INVALID_HANDLE_VALUE`, `::CreateThread` returns `NULL`
on failure, and a successful creation yields a valid handle.  The
distinction between `NULL` and `INVALID_HANDLE_VALUE` matters because
`CreateThread` ends with `return m_hThread ? TRUE : FALSE` (a C
truthiness test against `NULL`) while `IsCreated`/`ExitThread` compare
against `INVALID_HANDLE_VALUE`. -/
inductive HandleVal where
  | invalid
  | nullv
  | valid
deriving DecidableEq, Repr

/-- The members of one `ThreadWin` object that the coordinator-side
functions touch, plus instrumentation counters: `faults` counts
invocations of the fault collaborator (`ASSERT_TRUE` failures),
`closes` counts `CloseHandle` calls, `terminations` counts
`TerminateThread` calls and `exitPosts` counts postings of
`WM_EXIT_THREAD`. -/
structure AState where
  hThread : HandleVal
  hThreadStarted : HandleVal
  hThreadExited : HandleVal
  threadId : Nat
  faults : Nat
  closes : Nat
  terminations : Nat
  exitPosts : Nat
deriving DecidableEq, Repr

/-- Modelled from the spec: the constructor lives in the repository's
header, which is not part of `src/`; per the data model a freshly
constructed object has all handles invalid ("Unborn"). -/
def AState.unborn : AState :=
  { hThread := .invalid, hThreadStarted := .invalid, hThreadExited := .invalid,
    threadId := 0, faults := 0, closes := 0, terminations := 0, exitPosts := 0 }

/-- Modelled from the spec: the body of `IsCreated()` lives in the
repository's header, which is not part of `src/`; per the spec's
lifecycle a handle is Created/Running exactly while it owns a live OS
thread handle, i.e. `m_hThread != INVALID_HANDLE_VALUE`. -/
def isCreated (s : AState) : Bool :=
  s.hThread ≠ .invalid

/-- `ASSERT_TRUE(cond)`: invoke the fault collaborator when `cond` is
false.  The collaborator is out of scope ("abort with diagnostic"); we
record the invocation and let control continue so that the source
functions' fall-through return values remain observable. -/
def assertTrue (s : AState) (cond : Bool) : AState :=
  if cond then s else { s with faults := s.faults + 1 }

/-- `ThreadWin::CreateThread()`.  `spawnOk` is the outcome of the
`::CreateThread` OS call and `waitOk` the outcome of
`WaitForSingleObject(m_hThreadStarted, MAX_WAIT_TIME)` (`true` =
`WAIT_OBJECT_0`, `false` = timeout).  Returns the updated state and the
`BOOL` result. -/
def createThread (s : AState) (spawnOk : Bool) (waitOk : Bool) : AState × Bool :=
  if isCreated s then
    (s, false)
  else
    let s1 := { s with hThreadStarted := .valid }
    let s2 := { s1 with hThread := if spawnOk then .valid else .nullv,
                        threadId := if spawnOk then s1.threadId + 1 else s1.threadId }
    let s3 := assertTrue s2 (s2.hThread ≠ .nullv)
    let s4 := assertTrue s3 waitOk
    let s5 := { s4 with closes := s4.closes + 1, hThreadStarted := .invalid }
    (s5, s5.hThread ≠ .nullv)

/-- `ThreadWin::ExitThread()`.  `waitTimedOut` is the outcome of
`WaitForSingleObject(m_hThreadExited, MAX_WAIT_TIME)` (`true` =
`WAIT_TIMEOUT`, in which case `::TerminateThread` runs). -/
def exitThread (s : AState) (waitTimedOut : Bool) : AState :=
  if s.hThread ≠ .invalid then
    let s1 := { s with hThreadExited := .valid }
    let s2 := { s1 with exitPosts := s1.exitPosts + 1 }
    let s3 := if waitTimedOut then { s2 with terminations := s2.terminations + 1 } else s2
    let s4 := { s3 with closes := s3.closes + 1, hThread := .invalid }
    { s4 with closes := s4.closes + 1, hThreadExited := .invalid }
  else
    s

/-- A state in which the handle has been created (thread spawned and
handshake completed), for use as a concrete witness input. -/
def AState.created : AState :=
  (createThread AState.unborn true true).1

end SeqModel

/-! ## Interleaving model of the whole program

One sequential coordinator thread (as in `main`) executes a script of
ThreadWin API calls; each `ThreadWin` object, once spawned, runs
`RunProcess` followed by the `WorkerThread::Process` message loop on its
own worker thread.  Worker steps and the coordinator's internal steps
interleave arbitrarily.  Blocking waits (`WaitForSingleObject` on an
unsignaled event, `GetMessage` on an empty queue) are steps that are
simply not enabled; the fatal-timeout paths (handshake timeout, barrier
timeout) abort the process via the fault collaborator and therefore
have no continuing transition in this model.  The non-fatal
`ExitThread` timeout path is treated in `SeqModel.exitThread`. -/

namespace SysModel

/-- Message tags used by the program: `WM_THREAD_MSG` and
`WM_EXIT_THREAD` (both inside the `WM_USER_BEGIN`..`WM_USER_END` range
that `GetMessage` filters on). -/
inductive Tag where
  | work
  | exit
deriving DecidableEq, Repr

/-- A queued thread message: tag plus the `wParam` payload (the
`ThreadMsg*` pointer for `WM_THREAD_MSG`, `0`/NULL for
`WM_EXIT_THREAD`). -/
structure Msg where
  tag : Tag
  wParam : Nat
deriving DecidableEq, Repr

/-- Program counter of a worker thread running `RunProcess`:
force-create the queue with `PeekMessage`; `SetEvent(m_hThreadStarted)`;
optionally wait on the start-all barrier; then the
`WorkerThread::Process` loop (`GetMessage`, dispatch on the message);
finally `SetEvent(m_hThreadExited)` and return. -/
inductive WPC where
  | peek
  | sigStarted
  | waitBarrier
  | getMsg
  | handleMsg (m : Msg)
  | sigExited
  | done
deriving DecidableEq, Repr

/-- The two event names the source passes to `CreateEvent`:
`TEXT("ThreadCreatedEvent")` and `TEXT("ThreadExitedEvent")`.  Named
kernel objects are shared: creating an event whose name is already
registered returns the existing object. -/
inductive EvName where
  | createdName
  | exitedName
deriving DecidableEq, Repr

/-- The kernel's event-object table.  `objs` is indexed by object id;
`some b` is a live manual-reset event with signaled flag `b`, `none` a
destroyed object (slots are never reused).  `named` maps currently
registered names to live object ids. -/
structure Kernel where
  objs : List (Option Bool)
  named : List (EvName × Nat)
deriving DecidableEq, Repr

/-- Look up a registered event name. -/
def Kernel.lookupName (k : Kernel) (n : EvName) : Option Nat :=
  match k.named.find? (fun e => e.1 = n) with
  | some e => some e.2
  | none => none

/-- `CreateEvent(NULL, TRUE, FALSE, name)`: if an object with this name
is already registered the existing object is returned (Win32
`ERROR_ALREADY_EXISTS` behaviour), otherwise a fresh unsignaled
manual-reset event is allocated. -/
def Kernel.createEvent (k : Kernel) (n : EvName) : Kernel × Nat :=
  match k.lookupName n with
  | some id => (k, id)
  | none =>
      ({ objs := k.objs ++ [some false], named := (n, k.objs.length) :: k.named },
       k.objs.length)

/-- The state of object `id`: `some b` if live with signaled flag `b`,
`none` if destroyed or never allocated. -/
def Kernel.objAt (k : Kernel) (id : Nat) : Option Bool :=
  match k.objs[id]? with
  | some o => o
  | none => none

/-- Whether object `id` is live and signaled. -/
def Kernel.signaledAt (k : Kernel) (id : Nat) : Bool :=
  k.objAt id = some true

/-- `SetEvent(h)`: sets the signaled flag of a live object and returns
`TRUE`; fails (returns `FALSE`) on a dead object. -/
def Kernel.setEvent (k : Kernel) (id : Nat) : Kernel × Bool :=
  match k.objAt id with
  | some _ => ({ k with objs := k.objs.set id (some true) }, true)
  | none => (k, false)

/-- `SetEvent` through a (possibly `INVALID_HANDLE_VALUE`) member
handle: `SetEvent(INVALID_HANDLE_VALUE)` fails. -/
def Kernel.setEventH (k : Kernel) (h : Option Nat) : Kernel × Bool :=
  match h with
  | some id => k.setEvent id
  | none => (k, false)

/-- `CloseHandle(h)`: the source holds exactly one handle per event
object, so closing destroys the object and unregisters its name. -/
def Kernel.close (k : Kernel) (id : Nat) : Kernel :=
  { objs := k.objs.set id none, named := k.named.filter (fun e => e.2 ≠ id) }

/-- One `ThreadWin` object plus its worker thread and instrumentation.
`hThread` models `m_hThread != INVALID_HANDLE_VALUE`; `hThreadStarted`
and `hThreadExited` are the event-handle members (`none` =
`INVALID_HANDLE_VALUE`); `queueCreated`/`queue` model the worker
thread's Win32 message queue; `wpc` is the worker's program counter
(`none` = not spawned).  History instrumentation for the current thread
incarnation: `startedIdHist` remembers the id of the created-signal
object, `startedSignals`/`startedWaits` count `SetEvent` on /
successful waits on the created-signal, `createdOk` records that
`CreateThread` completed its handshake and returned, `posted` and
`delivered` record work payloads enqueued by the coordinator and
processed by the work loop. -/
structure TW where
  syncStart : Bool
  hThread : Bool
  hThreadStarted : Option Nat
  hThreadExited : Option Nat
  startedIdHist : Option Nat
  startedSignals : Nat
  startedWaits : Nat
  createdOk : Bool
  queueCreated : Bool
  queue : List Msg
  wpc : Option WPC
  posted : List Nat
  delivered : List Nat
deriving DecidableEq, Repr, Inhabited

/-- Modelled from the spec: the `ThreadWin` constructor lives in the
repository's header (not under `src/`); per the data model a freshly
constructed object, before `CreateThread`, is entirely invalid/empty
("Unborn"). -/
def TW.mkInit (sync : Bool) : TW :=
  { syncStart := sync, hThread := false, hThreadStarted := none, hThreadExited := none,
    startedIdHist := none, startedSignals := 0, startedWaits := 0, createdOk := false,
    queueCreated := false, queue := [], wpc := none, posted := [], delivered := [] }

/-- Modelled from the spec: the `ThreadWin::PostThreadMessage` wrapper
lives in the repository's header (not under `src/`); per the spec (§4.1,
§7) a post fails — without crashing — when the OS thread no longer
exists, and the underlying Win32 call fails when the thread has no
message queue yet.  The two failure reasons are kept distinct. -/
inductive PostOutcome where
  | ok
  | noQueue
  | noThread
deriving DecidableEq, Repr

/-- Decide the outcome of posting to this worker right now. -/
def postOutcome (t : TW) : PostOutcome :=
  if t.wpc = none ∨ t.wpc = some .done then .noThread
  else if t.queueCreated = false then .noQueue
  else .ok

/-- `PostThreadMessage(WM_THREAD_MSG, payload)`: on success the message
is enqueued and the payload recorded as posted; on failure nothing
happens (the demo driver ignores the result). -/
def TW.postWork (t : TW) (p : Nat) : TW :=
  if postOutcome t = .ok then
    { t with queue := t.queue ++ [⟨.work, p⟩], posted := t.posted ++ [p] }
  else t

/-- `PostThreadMessage(WM_EXIT_THREAD)` from `ExitThread`. -/
def TW.postStop (t : TW) : TW :=
  if postOutcome t = .ok then
    { t with queue := t.queue ++ [⟨.exit, 0⟩] }
  else t

/-- Which API call the coordinator (the owner thread, as in `main`) is
currently blocked inside: `ready` between calls, `createdWait i` inside
`CreateThread` on handle `i` waiting for the created-signal,
`exitWait i` inside `ExitThread` on handle `i` waiting for the
exit-signal. -/
inductive CPC where
  | ready
  | createdWait (i : Nat)
  | exitWait (i : Nat)
deriving DecidableEq, Repr

/-- A coordinator API call in the owner's program. -/
inductive Cmd where
  | create (i : Nat)
  | startAll
  | post (i : Nat) (p : Nat)
  | exitTh (i : Nat)
deriving DecidableEq, Repr

/-- Global system state: kernel event table, the shared start-all
event's signaled flag, all `ThreadWin` objects, the coordinator's
position, the remaining owner script, the set of payload pointers ever
allocated (`new` yields fresh pointers), and whether the fault
collaborator has ever been invoked. -/
structure Sys where
  kernel : Kernel
  barrier : Bool
  handles : List TW
  cpc : CPC
  script : List Cmd
  used : List Nat
  fault : Bool
deriving DecidableEq, Repr

/-- Replace handle `i`. -/
def Sys.setH (s : Sys) (i : Nat) (t : TW) : Sys :=
  { s with handles := s.handles.set i t }

/-- Modelled from the spec: the static `m_hStartAllThreads` member is
initialised in the repository's header (not under `src/`); per the spec
it is a process-wide manual-reset event created unsignaled at process
start and never destroyed.  The initial system therefore has the shared
start-all event existing and unsignaled. -/
def Sys.mkInit (syncs : List Bool) (script : List Cmd) : Sys :=
  { kernel := { objs := [], named := [] }, barrier := false,
    handles := syncs.map TW.mkInit, cpc := .ready, script := script,
    used := [], fault := false }

/-- `ThreadWin::StartAllThreads()`: `SetEvent(m_hStartAllThreads)` on
the shared manual-reset event. -/
def startAllThreads (s : Sys) : Sys :=
  { s with barrier := true }

/-- The worker is past the `PeekMessage`/`SetEvent(started)` part of
`RunProcess`. -/
def pastStart : Option WPC → Bool
  | some .waitBarrier => true
  | some .getMsg => true
  | some (.handleMsg _) => true
  | some .sigExited => true
  | some .done => true
  | _ => false

/-- The worker has entered (or finished) its `Process` work loop. -/
def inLoop : Option WPC → Bool
  | some .getMsg => true
  | some (.handleMsg _) => true
  | some .sigExited => true
  | some .done => true
  | _ => false

/-- The work payload currently being processed (popped from the queue
but not yet handled). -/
def inHand (t : TW) : List Nat :=
  match t.wpc with
  | some (.handleMsg m) => if m.tag = .work then [m.wParam] else []
  | _ => []

/-- The work payloads pending in a queue. -/
def workPayloads (q : List Msg) : List Nat :=
  q.filterMap (fun m => if m.tag = .work then some m.wParam else none)

/-- A scheduling/interleaving step of the system. -/
inductive Act where
  | wPeek (i : Nat)
  | wSigStarted (i : Nat)
  | wBarrier (i : Nat)
  | wGet (i : Nat)
  | wHandle (i : Nat)
  | wSigExited (i : Nat)
  | cBegin
  | cFinishCreate
  | cFinishExit
deriving DecidableEq, Repr

/-- Small-step transition function.  `none` means the step is not
enabled (the acting thread is blocked, or the action does not apply in
this state). -/
def step (s : Sys) (a : Act) : Option Sys :=
  match a with
  | .wPeek i =>
      match s.handles[i]? with
      | some t =>
          if t.wpc = some .peek then
            -- PeekMessage(&msg, NULL, WM_USER, WM_USER, PM_NOREMOVE):
            -- forces the OS to create this thread's message queue.
            some (s.setH i { t with queueCreated := true, wpc := some .sigStarted })
          else none
      | none => none
  | .wSigStarted i =>
      match s.handles[i]? with
      | some t =>
          if t.wpc = some .sigStarted then
            -- SetEvent(thread->m_hThreadStarted); ASSERT_TRUE(err != 0);
            some { (s.setH i { t with
                      wpc := some (if t.syncStart then .waitBarrier else .getMsg),
                      startedSignals := t.startedSignals + 1 }) with
                   kernel := (s.kernel.setEventH t.hThreadStarted).1,
                   fault := s.fault || !(s.kernel.setEventH t.hThreadStarted).2 }
          else none
      | none => none
  | .wBarrier i =>
      match s.handles[i]? with
      | some t =>
          if t.wpc = some .waitBarrier then
            if s.barrier = true then
              -- WaitForSingleObject(m_hStartAllThreads, MAX_WAIT_TIME)
              -- returns WAIT_OBJECT_0.
              some (s.setH i { t with wpc := some .getMsg })
            else none
          else none
      | none => none
  | .wGet i =>
      match s.handles[i]? with
      | some t =>
          if t.wpc = some .getMsg then
            match t.queue with
            | m :: rest =>
                -- GetMessage pops the next queued message.
                some (s.setH i { t with queue := rest, wpc := some (.handleMsg m) })
            | [] => none
          else none
      | none => none
  | .wHandle i =>
      match s.handles[i]? with
      | some t =>
          match t.wpc with
          | some (.handleMsg m) =>
              match m.tag with
              | .work =>
                  -- WM_THREAD_MSG: ASSERT_TRUE(msg.wParam != NULL);
                  -- print and delete the ThreadMsg.
                  some { (s.setH i { t with
                            delivered := t.delivered ++ [m.wParam],
                            wpc := some .getMsg }) with
                         fault := s.fault || decide (m.wParam = 0) }
              | .exit =>
                  -- WM_EXIT_THREAD: Process returns 0.
                  some (s.setH i { t with wpc := some .sigExited })
          | _ => none
      | none => none
  | .wSigExited i =>
      match s.handles[i]? with
      | some t =>
          if t.wpc = some .sigExited then
            -- SetEvent(thread->m_hThreadExited); ASSERT_TRUE(err != 0);
            -- then RunProcess returns and the OS thread ends.
            some { (s.setH i { t with wpc := some .done }) with
                   kernel := (s.kernel.setEventH t.hThreadExited).1,
                   fault := s.fault || !(s.kernel.setEventH t.hThreadExited).2 }
          else none
      | none => none
  | .cBegin =>
      if s.cpc = .ready then
        match s.script with
        | [] => none
        | .create i :: rest =>
            match s.handles[i]? with
            | some t =>
                if t.hThread = true then
                  -- IsCreated(): return FALSE without touching anything.
                  some { s with script := rest }
                else
                  -- m_hThreadStarted = CreateEvent(..., "ThreadCreatedEvent");
                  -- m_hThread = ::CreateThread(...); the new thread starts at
                  -- RunProcess with a fresh (not yet created) message queue.
                  some { (s.setH i { t with
                            hThread := true,
                            hThreadStarted := some (s.kernel.createEvent .createdName).2,
                            startedIdHist := some (s.kernel.createEvent .createdName).2,
                            startedSignals := 0, startedWaits := 0, createdOk := false,
                            queueCreated := false, queue := [], wpc := some .peek,
                            posted := [], delivered := [] }) with
                         kernel := (s.kernel.createEvent .createdName).1,
                         cpc := .createdWait i }
            | none => none
        | .startAll :: rest =>
            some { startAllThreads s with script := rest }
        | .post i p :: rest =>
            match s.handles[i]? with
            | some t =>
                if p ≠ 0 ∧ p ∉ s.used then
                  -- new ThreadMsg() yields a fresh non-null pointer, then
                  -- PostThreadMessage(WM_THREAD_MSG, threadMsg).
                  some { (s.setH i (t.postWork p)) with
                         used := s.used ++ [p], script := rest }
                else none
            | none => none
        | .exitTh i :: rest =>
            match s.handles[i]? with
            | some t =>
                if t.hThread = true then
                  -- m_hThreadExited = CreateEvent(..., "ThreadExitedEvent");
                  -- PostThreadMessage(WM_EXIT_THREAD);
                  some { (s.setH i (TW.postStop { t with
                            hThreadExited := some (s.kernel.createEvent .exitedName).2 })) with
                         kernel := (s.kernel.createEvent .exitedName).1,
                         cpc := .exitWait i }
                else
                  -- m_hThread == INVALID_HANDLE_VALUE: ExitThread is a no-op.
                  some { s with script := rest }
            | none => none
      else none
  | .cFinishCreate =>
      match s.cpc with
      | .createdWait i =>
          match s.script with
          | .create i' :: rest =>
              if i' = i then
                match s.handles[i]? with
                | some t =>
                    match t.hThreadStarted with
                    | some id =>
                        if s.kernel.signaledAt id then
                          -- WaitForSingleObject(m_hThreadStarted, ...) returns
                          -- WAIT_OBJECT_0; CloseHandle(m_hThreadStarted);
                          -- m_hThreadStarted = INVALID_HANDLE_VALUE; return TRUE.
                          some { (s.setH i { t with
                                    hThreadStarted := none,
                                    startedWaits := t.startedWaits + 1,
                                    createdOk := true }) with
                                 kernel := s.kernel.close id, cpc := .ready,
                                 script := rest }
                        else none
                    | none => none
                | none => none
              else none
          | _ => none
      | _ => none
  | .cFinishExit =>
      match s.cpc with
      | .exitWait i =>
          match s.script with
          | .exitTh i' :: rest =>
              if i' = i then
                match s.handles[i]? with
                | some t =>
                    match t.hThreadExited with
                    | some id =>
                        if s.kernel.signaledAt id then
                          -- WaitForSingleObject(m_hThreadExited, ...) returns
                          -- WAIT_OBJECT_0; CloseHandle(m_hThread);
                          -- CloseHandle(m_hThreadExited); both set to INVALID.
                          some { (s.setH i { t with
                                    hThreadExited := none, hThread := false }) with
                                 kernel := s.kernel.close id, cpc := .ready,
                                 script := rest }
                        else none
                    | none => none
                | none => none
              else none
          | _ => none
      | _ => none

/-- Total execution of an action list: actions that are not enabled are
skipped (they simply do not happen in that interleaving). -/
def runT (s : Sys) : List Act → Sys
  | [] => s
  | a :: rest =>
      match step s a with
      | some s' => runT s' rest
      | none => runT s rest

/-- `s` is reachable from `s0` by some interleaving. -/
def Reaches (s0 s : Sys) : Prop :=
  ∃ acts : List Act, runT s0 acts = s

/-! ### The global invariant -/

/-- Number of `WM_EXIT_THREAD` messages in a queue. -/
def exitCount (q : List Msg) : Nat :=
  q.countP (fun m => decide (m.tag = .exit))

/-- While no exit-signal object exists: no stop message is pending and
the worker is not at the point of signaling it. -/
def ExitNone (t : TW) : Prop :=
  exitCount t.queue = 0 ∧ (∀ m, t.wpc = some (.handleMsg m) → m.tag = .work) ∧
  t.wpc ≠ some .sigExited

/-- While the exit-signal object `id` is owned by handle `i`: the
coordinator is blocked inside `ExitThread` on this handle and exactly
one stop token travels from the queue through the work loop to the
final `SetEvent`; the object is live the whole time and is signaled
exactly when the worker reaches `done`. -/
def ExitLive (cpc : CPC) (k : Kernel) (i : Nat) (t : TW) (id : Nat) : Prop :=
  cpc = .exitWait i ∧
  ((exitCount t.queue = 1 ∧ (∀ m, t.wpc = some (.handleMsg m) → m.tag = .work) ∧
      t.wpc ≠ some .sigExited ∧ t.wpc ≠ some .done ∧ k.objAt id = some false) ∨
   (exitCount t.queue = 0 ∧ (∃ p, t.wpc = some (.handleMsg ⟨.exit, p⟩)) ∧
      k.objAt id = some false) ∨
   (exitCount t.queue = 0 ∧ t.wpc = some .sigExited ∧ k.objAt id = some false) ∨
   (exitCount t.queue = 0 ∧ t.wpc = some .done ∧ k.objAt id = some true))

/-- Per-handle stage of the exit protocol. -/
def ExitStage (cpc : CPC) (k : Kernel) (i : Nat) (t : TW) : Prop :=
  (t.hThreadExited = none → ExitNone t) ∧
  ∀ id, t.hThreadExited = some id → ExitLive cpc k i t id

/-- Per-handle invariant of the system, relative to the coordinator
position, kernel, barrier flag and allocation history. -/
structure HInv (cpc : CPC) (k : Kernel) (barrier : Bool) (used : List Nat)
    (i : Nat) (t : TW) : Prop where
  /-- The message queue exists exactly once the worker has executed its
  `PeekMessage` probe. -/
  queue_iff : t.queueCreated = true ↔ (t.wpc ≠ none ∧ t.wpc ≠ some .peek)
  /-- A completed `CreateThread` handshake implies the queue exists. -/
  createdOk_queue : t.createdOk = true → t.queueCreated = true
  /-- A completed handshake implies the worker is past `SetEvent(started)`. -/
  createdOk_past : t.createdOk = true → pastStart t.wpc = true
  /-- The worker's pre-handshake phases happen while the coordinator is
  blocked inside `CreateThread` on this very handle. -/
  early_cpc : t.wpc = some .peek ∨ t.wpc = some .sigStarted → cpc = .createdWait i
  /-- While the created-signal handle is live: the coordinator is inside
  `CreateThread` on this handle, the worker exists, the id is recorded,
  and the object is live, signaled exactly when the worker is past
  `SetEvent(started)`. -/
  started_mem : ∀ id, t.hThreadStarted = some id →
      cpc = .createdWait i ∧ t.wpc ≠ none ∧ t.startedIdHist = some id ∧
      k.objAt id = some (pastStart t.wpc)
  /-- The handshake is not yet complete while the coordinator waits. -/
  cw_not_ok : cpc = .createdWait i → t.createdOk = false
  /-- A sync-start worker enters its work loop only after the shared
  start-all event has been signaled. -/
  barrier_gate : t.syncStart = true → inLoop t.wpc = true → barrier = true
  /-- Stage of the exit protocol. -/
  exit_stage : ExitStage cpc k i t
  /-- A finished worker whose `ThreadWin` still owns a thread handle
  still owns its exit-signal object (it is closed only by the
  `ExitThread` call that also invalidates the thread handle). -/
  done_exited : t.wpc = some .done → t.hThread = true → t.hThreadExited ≠ none
  /-- A live thread handle means `CreateThread` is in progress or has
  completed its handshake. -/
  hThread_state : t.hThread = true → cpc = .createdWait i ∨ t.createdOk = true
  /-- The created-signal is signaled exactly once per incarnation. -/
  signals_count : t.startedSignals = if pastStart t.wpc = true then 1 else 0
  /-- The created-signal is waited on exactly once per incarnation. -/
  waits_count : t.startedWaits = if t.createdOk = true then 1 else 0
  /-- After the handshake the created-signal handle member is invalid. -/
  ok_closed : t.createdOk = true → t.hThreadStarted = none
  /-- Recorded created-signal ids are allocated. -/
  hist_lt : ∀ id, t.startedIdHist = some id → id < k.objs.length
  /-- After the handshake the created-signal object is destroyed. -/
  ok_hist_dead : t.createdOk = true → ∀ id, t.startedIdHist = some id →
      k.objAt id = none
  /-- Work-item accounting: what the loop has processed, what it holds,
  and what is still queued, in order, is exactly what was posted. -/
  acct : t.delivered ++ inHand t ++ workPayloads t.queue = t.posted
  /-- Posted payloads are pairwise distinct. -/
  posted_nodup : t.posted.Nodup
  /-- Posted payloads come from the allocator and are non-null. -/
  posted_used : ∀ p, p ∈ t.posted → p ∈ used ∧ p ≠ 0

/-- The kernel's name table holds exactly the named event that the
current in-progress API call (if any) has created. -/
def NamedOk (s : Sys) : Prop :=
  match s.cpc with
  | .ready => s.kernel.named = []
  | .createdWait i => ∃ t id, s.handles[i]? = some t ∧ t.hThreadStarted = some id ∧
      s.kernel.named = [(.createdName, id)]
  | .exitWait i => ∃ t id, s.handles[i]? = some t ∧ t.hThreadExited = some id ∧
      s.kernel.named = [(.exitedName, id)]

/-- An in-progress API call corresponds to the script's head command. -/
def ScriptOk (s : Sys) : Prop :=
  match s.cpc with
  | .ready => True
  | .createdWait i => ∃ rest, s.script = .create i :: rest
  | .exitWait i => ∃ rest, s.script = .exitTh i :: rest

/-- The global invariant. -/
structure Inv (s : Sys) : Prop where
  /-- The fault collaborator is never invoked in any execution. -/
  fault_false : s.fault = false
  named_ok : NamedOk s
  script_ok : ScriptOk s
  /-- Created-signal objects of distinct handles are distinct kernel
  objects. -/
  distinct : ∀ (i j : Nat) (ti tj : TW), i ≠ j → s.handles[i]? = some ti →
      s.handles[j]? = some tj → ∀ a b, ti.startedIdHist = some a →
      tj.startedIdHist = some b → a ≠ b
  hinv : ∀ i t, s.handles[i]? = some t → HInv s.cpc s.kernel s.barrier s.used i t

/-! ### Concrete demo executions (the `main` of `src/main.cpp`) -/

/-- The owner script of the demo driver: create both workers, release
the barrier, post one work item to each, then exit both. -/
def demoScript : List Cmd :=
  [.create 0, .create 1, .startAll, .post 0 5, .post 1 7, .exitTh 0, .exitTh 1]

/-- Initial state of the demo program (two sync-start workers). -/
def demoInit : Sys := Sys.mkInit [true, true] demoScript

/-- Interleaving: complete `CreateThread` on worker 0. -/
def dActsCreate0 : List Act :=
  [.cBegin, .wPeek 0, .wSigStarted 0, .cFinishCreate]

/-- State after `workerThread1.CreateThread()` returned. -/
def demoAfterCreate0 : Sys := runT demoInit dActsCreate0

/-- Interleaving: complete `CreateThread` on both workers. -/
def dActsCreates : List Act :=
  dActsCreate0 ++ [.cBegin, .wPeek 1, .wSigStarted 1, .cFinishCreate]

/-- State after both `CreateThread` calls returned. -/
def demoAfterCreates : Sys := runT demoInit dActsCreates

/-- Interleaving: release the barrier and let worker 0 through it. -/
def dActsStarted : List Act := dActsCreates ++ [.cBegin, .wBarrier 0]

/-- State with the barrier released and worker 0 in its work loop. -/
def demoAfterStart : Sys := runT demoInit dActsStarted

/-- Interleaving: worker 1 through the barrier, both posts, worker 0
processes its work item. -/
def dActsMid : List Act :=
  dActsStarted ++ [.wBarrier 1, .cBegin, .cBegin, .wGet 0, .wHandle 0]

/-- State after worker 0 has processed payload `5`. -/
def demoMid : Sys := runT demoInit dActsMid

/-- Interleaving: `ExitThread` on worker 0 posts the stop message and
the worker consumes it, arriving at the final `SetEvent`. -/
def dActsExit0 : List Act := dActsMid ++ [.cBegin, .wGet 0, .wHandle 0]

/-- State with worker 0 about to signal its exit-signal object. -/
def demoAtSigExit : Sys := runT demoInit dActsExit0

/-- Handle 0 after its `CreateThread` returned. -/
def demoT1 : TW := (demoAfterCreate0.handles[0]?).getD default

/-- Handle 0 once the barrier is released and it entered its loop. -/
def demoT2a : TW := (demoAfterStart.handles[0]?).getD default

/-- Handle 1 while still blocked at the barrier wait. -/
def demoT2b : TW := (demoAfterStart.handles[1]?).getD default

/-- The state after worker 1 passes the released barrier. -/
def demoStep5 : Sys := (step demoAfterStart (.wBarrier 1)).getD demoAfterStart

/-- Handle 0 after both creates completed. -/
def demoT8a : TW := (demoAfterCreates.handles[0]?).getD default

/-- Handle 1 after both creates completed. -/
def demoT8b : TW := (demoAfterCreates.handles[1]?).getD default

/-- Handle 0 after processing its work item. -/
def demoT9 : TW := (demoMid.handles[0]?).getD default

/-- Handle 0 at the final `SetEvent(m_hThreadExited)`. -/
def demoT7 : TW := (demoAtSigExit.handles[0]?).getD default

/-- The state right after worker 0 signals its exit-signal object. -/
def demoAfterSig : Sys := (step demoAtSigExit (.wSigExited 0)).getD demoAtSigExit

end SysModel

end ThreadWin

/-! ## Helper lemmas -/

namespace ThreadWin

namespace SysModel

theorem Kernel.objAt_lt {k : Kernel} {id : Nat} {b : Bool} (h : k.objAt id = some b) :
    id < k.objs.length := by
  by_contra hlt
  have hnone : k.objs[id]? = none := List.getElem?_eq_none (le_of_not_lt hlt)
  simp [Kernel.objAt, hnone] at h

theorem Kernel.setEvent_live {k : Kernel} {id : Nat} {b : Bool} (h : k.objAt id = some b) :
    k.setEvent id = ({ k with objs := k.objs.set id (some true) }, true) := by
  simp [Kernel.setEvent, h]

theorem Kernel.setEvent_dead {k : Kernel} {id : Nat} (h : k.objAt id = none) :
    k.setEvent id = (k, false) := by
  simp [Kernel.setEvent, h]

theorem objAt_set_self {l : List (Option Bool)} {nm : List (EvName × Nat)} {id : Nat}
    (h : id < l.length) (v : Option Bool) :
    Kernel.objAt ⟨l.set id v, nm⟩ id = v := by
  simp [Kernel.objAt, List.getElem?_set_self, h]

theorem objAt_set_ne {l : List (Option Bool)} {nm : List (EvName × Nat)} {id id' : Nat}
    (h : id ≠ id') (v : Option Bool) :
    Kernel.objAt ⟨l.set id v, nm⟩ id' = Kernel.objAt ⟨l, nm⟩ id' := by
  simp [Kernel.objAt, List.getElem?_set_ne h]

theorem objAt_named_irrel {l : List (Option Bool)} {nm nm' : List (EvName × Nat)} {id : Nat} :
    Kernel.objAt ⟨l, nm⟩ id = Kernel.objAt ⟨l, nm'⟩ id := rfl

theorem objAt_append_lt {l : List (Option Bool)} {nm : List (EvName × Nat)}
    {v : Option Bool} {id : Nat} (h : id < l.length) :
    Kernel.objAt ⟨l ++ [v], nm⟩ id = Kernel.objAt ⟨l, nm⟩ id := by
  simp [Kernel.objAt, List.getElem?_append, h]

theorem objAt_append_self {l : List (Option Bool)} {nm : List (EvName × Nat)}
    {v : Option Bool} :
    Kernel.objAt ⟨l ++ [v], nm⟩ l.length = v := by
  simp [Kernel.objAt]

theorem getH_lt {s : Sys} {i : Nat} {t : TW} (h : s.handles[i]? = some t) :
    i < s.handles.length :=
  (List.getElem?_eq_some.mp h).1

theorem getH_setH_self {s : Sys} {i : Nat} {t0 t : TW} (h : s.handles[i]? = some t0) :
    (s.setH i t).handles[i]? = some t := by
  simp [Sys.setH, List.getElem?_set_self, getH_lt h]

theorem getH_setH_ne {s : Sys} {i j : Nat} {t : TW} (h : i ≠ j) :
    (s.setH i t).handles[j]? = s.handles[j]? := by
  simp [Sys.setH, List.getElem?_set_ne h]

theorem pastStart_true_facts {w : Option WPC} (h : pastStart w = true) :
    w ≠ none ∧ w ≠ some .peek ∧ w ≠ some .sigStarted := by
  cases w with
  | none => simp [pastStart] at h
  | some x => cases x <;> simp_all [pastStart]

theorem HInv.frame {cpc cpc' : CPC} {k k' : Kernel} {barrier barrier' : Bool}
    {used used' : List Nat} {j : Nat} {t : TW}
    (h : HInv cpc k barrier used j t)
    (hcw : cpc = .createdWait j ↔ cpc' = .createdWait j)
    (hew : cpc = .exitWait j ↔ cpc' = .exitWait j)
    (hb : barrier = true → barrier' = true)
    (hu : ∀ p, p ∈ used → p ∈ used')
    (hlen : k.objs.length ≤ k'.objs.length)
    (hs : ∀ id, t.hThreadStarted = some id → k'.objAt id = k.objAt id)
    (hx : ∀ id, t.hThreadExited = some id → k'.objAt id = k.objAt id)
    (hd : ∀ id, id < k.objs.length → k.objAt id = none → k'.objAt id = none) :
    HInv cpc' k' barrier' used' j t := by
  constructor
  · exact h.queue_iff
  · exact h.createdOk_queue
  · exact h.createdOk_past
  · exact fun hw => hcw.mp (h.early_cpc hw)
  · intro id hid
    obtain ⟨h1, h2, h3, h4⟩ := h.started_mem id hid
    exact ⟨hcw.mp h1, h2, h3, by rw [hs id hid]; exact h4⟩
  · exact fun hc => h.cw_not_ok (hcw.mpr hc)
  · exact fun a b => hb (h.barrier_gate a b)
  · refine ⟨h.exit_stage.1, fun id hid => ?_⟩
    obtain ⟨he1, he2⟩ := h.exit_stage.2 id hid
    refine ⟨hew.mp he1, ?_⟩
    rw [hx id hid]
    exact he2
  · exact h.done_exited
  · exact fun ht => (h.hThread_state ht).imp hcw.mp id
  · exact h.signals_count
  · exact h.waits_count
  · exact h.ok_closed
  · exact fun id hid => lt_of_lt_of_le (h.hist_lt id hid) hlen
  · exact fun hok id hid => hd id (h.hist_lt id hid) (h.ok_hist_dead hok id hid)
  · exact h.acct
  · exact h.posted_nodup
  · exact fun p hp => ⟨hu p (h.posted_used p hp).1, (h.posted_used p hp).2⟩

theorem namedOk_of_parts {s s' : Sys} (h : NamedOk s)
    (hcpc : s'.cpc = s.cpc) (hnm : s'.kernel.named = s.kernel.named)
    (hh : ∀ (j : Nat) (t : TW), s.handles[j]? = some t → ∃ t' : TW,
          s'.handles[j]? = some t' ∧
          t'.hThreadStarted = t.hThreadStarted ∧ t'.hThreadExited = t.hThreadExited) :
    NamedOk s' := by
  unfold NamedOk at h ⊢
  rw [hcpc, hnm]
  rcases hc : s.cpc with _ | i | i <;> rw [hc] at h
  · exact h
  · obtain ⟨t, id, hget, hst, hn⟩ := h
    obtain ⟨t', hget', hst', _⟩ := hh i t hget
    exact ⟨t', id, hget', by rw [hst']; exact hst, hn⟩
  · obtain ⟨t, id, hget, hst, hn⟩ := h
    obtain ⟨t', hget', _, hex'⟩ := hh i t hget
    exact ⟨t', id, hget', by rw [hex']; exact hst, hn⟩

theorem scriptOk_of_parts {s s' : Sys} (h : ScriptOk s)
    (hcpc : s'.cpc = s.cpc) (hscr : s'.script = s.script) : ScriptOk s' := by
  unfold ScriptOk at h ⊢
  rw [hcpc, hscr]
  exact h

theorem distinct_setH {s : Sys} {i : Nat} {t t' : TW}
    (hget : s.handles[i]? = some t) (hhist : t'.startedIdHist = t.startedIdHist)
    (hd : ∀ (a b : Nat) (ta tb : TW), a ≠ b → s.handles[a]? = some ta →
          s.handles[b]? = some tb → ∀ x y, ta.startedIdHist = some x →
          tb.startedIdHist = some y → x ≠ y) :
    ∀ (a b : Nat) (ta tb : TW), a ≠ b → (s.setH i t').handles[a]? = some ta →
          (s.setH i t').handles[b]? = some tb → ∀ x y, ta.startedIdHist = some x →
          tb.startedIdHist = some y → x ≠ y := by
  intro a b ta tb hab hga hgb x y hx hy
  rcases eq_or_ne i a with rfl | hia
  · rw [getH_setH_self hget] at hga
    rw [getH_setH_ne hab] at hgb
    obtain rfl := Option.some.inj hga
    exact hd i b t tb hab hget hgb x y (hhist ▸ hx) hy
  · rw [getH_setH_ne hia] at hga
    rcases eq_or_ne i b with rfl | hib
    · rw [getH_setH_self hget] at hgb
      obtain rfl := Option.some.inj hgb
      exact hd a i ta t hab hga hget x y hx (hhist ▸ hy)
    · rw [getH_setH_ne hib] at hgb
      exact hd a b ta tb hab hga hgb x y hx hy

/-! ### Invariant preservation, one lemma per action -/

theorem inv_wPeek {s s' : Sys} {i : Nat} (h : step s (.wPeek i) = some s')
    (hinv : Inv s) : Inv s' := by
  simp only [step] at h
  split at h
  next t hget =>
    split at h
    next hpc =>
      obtain rfl := (Option.some.inj h).symm
      have hold := hinv.hinv i t hget
      have hcpcCW : s.cpc = .createdWait i := hold.early_cpc (Or.inl hpc)
      have hcf : t.createdOk = false := hold.cw_not_ok hcpcCW
      refine ⟨hinv.fault_false, ?_, scriptOk_of_parts hinv.script_ok rfl rfl,
        distinct_setH hget rfl hinv.distinct, ?_⟩
      · refine namedOk_of_parts hinv.named_ok rfl rfl ?_
        intro j tj hgetj
        rcases eq_or_ne i j with rfl | hij
        · rw [hget] at hgetj
          obtain rfl := Option.some.inj hgetj
          exact ⟨_, getH_setH_self hget, rfl, rfl⟩
        · exact ⟨tj, by rw [getH_setH_ne hij]; exact hgetj, rfl, rfl⟩
      · intro j tj hgetj
        rcases eq_or_ne i j with rfl | hij
        · rw [getH_setH_self hget] at hgetj
          obtain rfl := (Option.some.inj hgetj).symm
          refine ⟨by simp, fun _ => rfl, ?_, fun _ => hcpcCW, ?_, fun _ => hcf, ?_,
            ⟨?_, ?_⟩, ?_, hold.hThread_state, ?_, hold.waits_count, hold.ok_closed,
            hold.hist_lt, hold.ok_hist_dead, ?_, hold.posted_nodup, hold.posted_used⟩
          · intro hok
            have hok' : t.createdOk = true := hok
            rw [hcf] at hok'
            simp at hok'
          · intro id hid
            have hid' : t.hThreadStarted = some id := hid
            obtain ⟨h1, h2, h3, h4⟩ := hold.started_mem id hid'
            rw [hpc] at h4
            exact ⟨h1, by simp, h3, h4⟩
          · intro hsync hl
            have hl' : inLoop (some WPC.sigStarted) = true := hl
            simp [inLoop] at hl'
          · intro hn
            have hn' : t.hThreadExited = none := hn
            have he := hold.exit_stage.1 hn'
            exact ⟨he.1, by simp, by simp⟩
          · intro id hid
            have hid' : t.hThreadExited = some id := hid
            obtain ⟨h1, _⟩ := hold.exit_stage.2 id hid'
            rw [hcpcCW] at h1
            simp at h1
          · intro hd0 _
            have hd0' : (some WPC.sigStarted : Option WPC) = some WPC.done := hd0
            simp at hd0'
          · have h11 := hold.signals_count
            rw [hpc] at h11
            simpa [pastStart] using h11
          · simpa [inHand, hpc] using hold.acct
        · rw [getH_setH_ne hij] at hgetj
          exact (hinv.hinv j tj hgetj).frame Iff.rfl Iff.rfl (fun hb => hb)
            (fun p hp => hp) le_rfl (fun id _ => rfl) (fun id _ => rfl)
            (fun id _ hh => hh)
    next hpc => cases h
  next hget => cases h

theorem inv_wBarrier {s s' : Sys} {i : Nat} (h : step s (.wBarrier i) = some s')
    (hinv : Inv s) : Inv s' := by
  simp only [step] at h
  split at h
  next t hget =>
    split at h
    next hpc =>
      split at h
      next hb =>
        obtain rfl := (Option.some.inj h).symm
        have hold := hinv.hinv i t hget
        have hq : t.queueCreated = true :=
          hold.queue_iff.mpr (by rw [hpc]; exact ⟨by simp, by simp⟩)
        refine ⟨hinv.fault_false, ?_, scriptOk_of_parts hinv.script_ok rfl rfl,
          distinct_setH hget rfl hinv.distinct, ?_⟩
        · refine namedOk_of_parts hinv.named_ok rfl rfl ?_
          intro j tj hgetj
          rcases eq_or_ne i j with rfl | hij
          · rw [hget] at hgetj
            obtain rfl := Option.some.inj hgetj
            exact ⟨_, getH_setH_self hget, rfl, rfl⟩
          · exact ⟨tj, by rw [getH_setH_ne hij]; exact hgetj, rfl, rfl⟩
        · intro j tj hgetj
          rcases eq_or_ne i j with rfl | hij
          · rw [getH_setH_self hget] at hgetj
            obtain rfl := (Option.some.inj hgetj).symm
            refine ⟨by simp [hq], fun _ => hq, fun _ => rfl, ?_, ?_, hold.cw_not_ok,
              fun _ _ => hb, ⟨?_, ?_⟩, ?_, hold.hThread_state, ?_, hold.waits_count,
              hold.ok_closed, hold.hist_lt, hold.ok_hist_dead, ?_, hold.posted_nodup,
              hold.posted_used⟩
            · intro hw
              simp at hw
            · intro id hid
              have hid' : t.hThreadStarted = some id := hid
              obtain ⟨h1, _, h3, h4⟩ := hold.started_mem id hid'
              rw [hpc] at h4
              exact ⟨h1, by simp, h3, h4⟩
            · intro hn
              have hn' : t.hThreadExited = none := hn
              have he := hold.exit_stage.1 hn'
              exact ⟨he.1, by simp, by simp⟩
            · intro id hid
              have hid' : t.hThreadExited = some id := hid
              obtain ⟨h1, h2⟩ := hold.exit_stage.2 id hid'
              refine ⟨h1, ?_⟩
              rcases h2 with ⟨hc, _, _, _, ho⟩ | ⟨_, ⟨p, hp2⟩, _⟩ | ⟨_, hp2, _⟩ |
                ⟨_, hp2, _⟩
              · exact Or.inl ⟨hc, by simp, by simp, by simp, ho⟩
              · rw [hpc] at hp2
                simp at hp2
              · rw [hpc] at hp2
                simp at hp2
              · rw [hpc] at hp2
                simp at hp2
            · intro hd0 _
              have hd0' : (some WPC.getMsg : Option WPC) = some WPC.done := hd0
              simp at hd0'
            · have h11 := hold.signals_count
              rw [hpc] at h11
              exact h11
            · simpa [inHand, hpc] using hold.acct
          · rw [getH_setH_ne hij] at hgetj
            exact (hinv.hinv j tj hgetj).frame Iff.rfl Iff.rfl (fun hb => hb)
              (fun p hp => hp) le_rfl (fun id _ => rfl) (fun id _ => rfl)
              (fun id _ hh => hh)
      next hb => cases h
    next hpc => cases h
  next hget => cases h

theorem inv_wGet {s s' : Sys} {i : Nat} (h : step s (.wGet i) = some s')
    (hinv : Inv s) : Inv s' := by
  simp only [step] at h
  split at h
  next t hget =>
    split at h
    next hpc =>
      split at h
      next m rest heq =>
        obtain rfl := (Option.some.inj h).symm
        have hold := hinv.hinv i t hget
        have hq : t.queueCreated = true :=
          hold.queue_iff.mpr (by rw [hpc]; exact ⟨by simp, by simp⟩)
        refine ⟨hinv.fault_false, ?_, scriptOk_of_parts hinv.script_ok rfl rfl,
          distinct_setH hget rfl hinv.distinct, ?_⟩
        · refine namedOk_of_parts hinv.named_ok rfl rfl ?_
          intro j tj hgetj
          rcases eq_or_ne i j with rfl | hij
          · rw [hget] at hgetj
            obtain rfl := Option.some.inj hgetj
            exact ⟨_, getH_setH_self hget, rfl, rfl⟩
          · exact ⟨tj, by rw [getH_setH_ne hij]; exact hgetj, rfl, rfl⟩
        · intro j tj hgetj
          rcases eq_or_ne i j with rfl | hij
          · rw [getH_setH_self hget] at hgetj
            obtain rfl := (Option.some.inj hgetj).symm
            refine ⟨by simp [hq], fun _ => hq, fun _ => rfl, ?_, ?_, hold.cw_not_ok,
              fun hsy _ => hold.barrier_gate hsy (by rw [hpc]; rfl), ⟨?_, ?_⟩, ?_,
              hold.hThread_state, ?_, hold.waits_count, hold.ok_closed, hold.hist_lt,
              hold.ok_hist_dead, ?_, hold.posted_nodup, hold.posted_used⟩
            · intro hw
              simp at hw
            · intro id hid
              have hid' : t.hThreadStarted = some id := hid
              obtain ⟨h1, _, h3, h4⟩ := hold.started_mem id hid'
              rw [hpc] at h4
              exact ⟨h1, by simp, h3, h4⟩
            · intro hn
              have hn' : t.hThreadExited = none := hn
              have he := hold.exit_stage.1 hn'
              have hc0 := he.1
              rw [heq] at hc0
              have hmw : m.tag = .work := by
                rcases htag : m.tag
                · rfl
                · rw [exitCount, List.countP_cons, htag] at hc0
                  simp at hc0
              refine ⟨?_, ?_, by simp⟩
              · rw [exitCount, List.countP_cons, hmw] at hc0
                simpa [exitCount] using hc0
              · intro m' hm'
                have hm'' : m' = m := by
                  have : (some (WPC.handleMsg m) : Option WPC) =
                      some (WPC.handleMsg m') := hm'
                  simpa using this.symm
                rw [hm'']
                exact hmw
            · intro id hid
              have hid' : t.hThreadExited = some id := hid
              obtain ⟨h1, h2⟩ := hold.exit_stage.2 id hid'
              refine ⟨h1, ?_⟩
              rcases h2 with ⟨hc, _, _, _, ho⟩ | ⟨_, ⟨p, hp2⟩, _⟩ | ⟨_, hp2, _⟩ |
                ⟨_, hp2, _⟩
              · rw [heq] at hc
                rcases htag : m.tag
                · rw [exitCount, List.countP_cons, htag] at hc
                  simp at hc
                  refine Or.inl ⟨by simpa [exitCount] using hc, ?_, by simp, by simp, ho⟩
                  intro m' hm'
                  have hm'' : m' = m := by
                    have : (some (WPC.handleMsg m) : Option WPC) =
                        some (WPC.handleMsg m') := hm'
                    simpa using this.symm
                  rw [hm'', htag]
                · rw [exitCount, List.countP_cons, htag] at hc
                  simp at hc
                  refine Or.inr (Or.inl ⟨by simpa [exitCount] using hc, ⟨m.wParam, ?_⟩, ho⟩)
                  have hm'' : m = ⟨.exit, m.wParam⟩ := by
                    cases m with
                    | mk tg pp => simp at htag; rw [htag]
                  rw [← hm'']
              · rw [hpc] at hp2
                simp at hp2
              · rw [hpc] at hp2
                simp at hp2
              · rw [hpc] at hp2
                simp at hp2
            · intro hd0 _
              have hd0' : (some (WPC.handleMsg m) : Option WPC) = some WPC.done := hd0
              simp at hd0'
            · have h11 := hold.signals_count
              rw [hpc] at h11
              exact h11
            · have ha := hold.acct
              rw [heq] at ha
              rcases htag : m.tag <;>
                simpa [inHand, hpc, workPayloads, List.filterMap_cons, htag] using ha
          · rw [getH_setH_ne hij] at hgetj
            exact (hinv.hinv j tj hgetj).frame Iff.rfl Iff.rfl (fun hb => hb)
              (fun p hp => hp) le_rfl (fun id _ => rfl) (fun id _ => rfl)
              (fun id _ hh => hh)
      next heq => cases h
    next hpc => cases h
  next hget => cases h

theorem inv_wHandle {s s' : Sys} {i : Nat} (h : step s (.wHandle i) = some s')
    (hinv : Inv s) : Inv s' := by
  simp only [step] at h
  split at h
  next t hget =>
    split at h
    next m hpc =>
      have hold := hinv.hinv i t hget
      have hq : t.queueCreated = true :=
        hold.queue_iff.mpr (by rw [hpc]; exact ⟨by simp, by simp⟩)
      split at h
      next htag =>
        -- WM_THREAD_MSG
        obtain rfl := (Option.some.inj h).symm
        have hp : m.wParam ∈ t.posted := by
          rw [← hold.acct]
          simp [inHand, hpc, htag]
        have hnz : m.wParam ≠ 0 := (hold.posted_used _ hp).2
        refine ⟨?_, ?_, scriptOk_of_parts hinv.script_ok rfl rfl,
          distinct_setH hget rfl hinv.distinct, ?_⟩
        · simp [Sys.setH, hinv.fault_false, hnz]
        · refine namedOk_of_parts hinv.named_ok rfl rfl ?_
          intro j tj hgetj
          rcases eq_or_ne i j with rfl | hij
          · rw [hget] at hgetj
            obtain rfl := Option.some.inj hgetj
            exact ⟨_, getH_setH_self hget, rfl, rfl⟩
          · exact ⟨tj, by rw [getH_setH_ne hij]; exact hgetj, rfl, rfl⟩
        · intro j tj hgetj
          rcases eq_or_ne i j with rfl | hij
          · rw [getH_setH_self hget] at hgetj
            obtain rfl := (Option.some.inj hgetj).symm
            refine ⟨by simp [hq], fun _ => hq, fun _ => rfl, ?_, ?_, hold.cw_not_ok,
              fun hsy _ => hold.barrier_gate hsy (by rw [hpc]; rfl), ⟨?_, ?_⟩, ?_,
              hold.hThread_state, ?_, hold.waits_count, hold.ok_closed, hold.hist_lt,
              hold.ok_hist_dead, ?_, hold.posted_nodup, hold.posted_used⟩
            · intro hw
              simp at hw
            · intro id hid
              have hid' : t.hThreadStarted = some id := hid
              obtain ⟨h1, _, h3, h4⟩ := hold.started_mem id hid'
              rw [hpc] at h4
              exact ⟨h1, by simp, h3, h4⟩
            · intro hn
              have hn' : t.hThreadExited = none := hn
              have he := hold.exit_stage.1 hn'
              exact ⟨he.1, by simp, by simp⟩
            · intro id hid
              have hid' : t.hThreadExited = some id := hid
              obtain ⟨h1, h2⟩ := hold.exit_stage.2 id hid'
              refine ⟨h1, ?_⟩
              rcases h2 with ⟨hc, _, _, _, ho⟩ | ⟨_, ⟨p, hp2⟩, _⟩ | ⟨_, hp2, _⟩ |
                ⟨_, hp2, _⟩
              · exact Or.inl ⟨hc, by simp, by simp, by simp, ho⟩
              · rw [hpc] at hp2
                have hm : m = ⟨Tag.exit, p⟩ := by simpa using hp2
                rw [hm] at htag
                simp at htag
              · rw [hpc] at hp2
                simp at hp2
              · rw [hpc] at hp2
                simp at hp2
            · intro hd0 _
              have hd0' : (some WPC.getMsg : Option WPC) = some WPC.done := hd0
              simp at hd0'
            · have h11 := hold.signals_count
              rw [hpc] at h11
              exact h11
            · simpa [inHand, hpc, htag, List.append_assoc] using hold.acct
          · rw [getH_setH_ne hij] at hgetj
            exact (hinv.hinv j tj hgetj).frame Iff.rfl Iff.rfl (fun hb => hb)
              (fun p hp => hp) le_rfl (fun id _ => rfl) (fun id _ => rfl)
              (fun id _ hh => hh)
      next htag =>
        -- WM_EXIT_THREAD
        obtain rfl := (Option.some.inj h).symm
        refine ⟨hinv.fault_false, ?_, scriptOk_of_parts hinv.script_ok rfl rfl,
          distinct_setH hget rfl hinv.distinct, ?_⟩
        · refine namedOk_of_parts hinv.named_ok rfl rfl ?_
          intro j tj hgetj
          rcases eq_or_ne i j with rfl | hij
          · rw [hget] at hgetj
            obtain rfl := Option.some.inj hgetj
            exact ⟨_, getH_setH_self hget, rfl, rfl⟩
          · exact ⟨tj, by rw [getH_setH_ne hij]; exact hgetj, rfl, rfl⟩
        · intro j tj hgetj
          rcases eq_or_ne i j with rfl | hij
          · rw [getH_setH_self hget] at hgetj
            obtain rfl := (Option.some.inj hgetj).symm
            refine ⟨by simp [hq], fun _ => hq, fun _ => rfl, ?_, ?_, hold.cw_not_ok,
              fun hsy _ => hold.barrier_gate hsy (by rw [hpc]; rfl), ⟨?_, ?_⟩, ?_,
              hold.hThread_state, ?_, hold.waits_count, hold.ok_closed, hold.hist_lt,
              hold.ok_hist_dead, ?_, hold.posted_nodup, hold.posted_used⟩
            · intro hw
              simp at hw
            · intro id hid
              have hid' : t.hThreadStarted = some id := hid
              obtain ⟨h1, _, h3, h4⟩ := hold.started_mem id hid'
              rw [hpc] at h4
              exact ⟨h1, by simp, h3, h4⟩
            · intro hn
              have hn' : t.hThreadExited = none := hn
              have hw := (hold.exit_stage.1 hn').2.1 m hpc
              rw [htag] at hw
              simp at hw
            · intro id hid
              have hid' : t.hThreadExited = some id := hid
              obtain ⟨h1, h2⟩ := hold.exit_stage.2 id hid'
              refine ⟨h1, ?_⟩
              rcases h2 with ⟨_, hwk, _, _, _⟩ | ⟨hc0, _, ho⟩ | ⟨_, hp2, _⟩ |
                ⟨_, hp2, _⟩
              · have := hwk m hpc
                rw [htag] at this
                simp at this
              · exact Or.inr (Or.inr (Or.inl ⟨hc0, rfl, ho⟩))
              · rw [hpc] at hp2
                simp at hp2
              · rw [hpc] at hp2
                simp at hp2
            · intro hd0 _
              have hd0' : (some WPC.sigExited : Option WPC) = some WPC.done := hd0
              simp at hd0'
            · have h11 := hold.signals_count
              rw [hpc] at h11
              exact h11
            · simpa [inHand, hpc, htag] using hold.acct
          · rw [getH_setH_ne hij] at hgetj
            exact (hinv.hinv j tj hgetj).frame Iff.rfl Iff.rfl (fun hb => hb)
              (fun p hp => hp) le_rfl (fun id _ => rfl) (fun id _ => rfl)
              (fun id _ hh => hh)
    next hpc => cases h
  next hget => cases h

theorem inv_wSigStarted {s s' : Sys} {i : Nat} (h : step s (.wSigStarted i) = some s')
    (hinv : Inv s) : Inv s' := by
  simp only [step] at h
  split at h
  next t hget =>
    split at h
    next hpc =>
      obtain rfl := (Option.some.inj h).symm
      have hold := hinv.hinv i t hget
      have hcpcCW : s.cpc = .createdWait i := hold.early_cpc (Or.inr hpc)
      have hcf : t.createdOk = false := hold.cw_not_ok hcpcCW
      have hq : t.queueCreated = true :=
        hold.queue_iff.mpr (by rw [hpc]; exact ⟨by simp, by simp⟩)
      have hn := hinv.named_ok
      unfold NamedOk at hn
      rw [hcpcCW] at hn
      obtain ⟨t0, id, hget0, hst0, hnm⟩ := hn
      rw [hget] at hget0
      obtain rfl := Option.some.inj hget0
      obtain ⟨_, _, hhist, h4⟩ := hold.started_mem id hst0
      have h4f : s.kernel.objAt id = some false := by
        rw [hpc] at h4
        exact h4
      have hr : s.kernel.setEventH t.hThreadStarted =
          ({ s.kernel with objs := s.kernel.objs.set id (some true) }, true) := by
        rw [hst0]
        simpa [Kernel.setEventH] using Kernel.setEvent_live h4f
      rw [hr]
      have hlt : id < s.kernel.objs.length := Kernel.objAt_lt h4f
      refine ⟨?_, ?_, scriptOk_of_parts hinv.script_ok rfl rfl,
        distinct_setH hget rfl hinv.distinct, ?_⟩
      · simp [Sys.setH, hinv.fault_false]
      · refine namedOk_of_parts hinv.named_ok rfl rfl ?_
        intro j tj hgetj
        rcases eq_or_ne i j with rfl | hij
        · rw [hget] at hgetj
          obtain rfl := Option.some.inj hgetj
          exact ⟨_, getH_setH_self hget, rfl, rfl⟩
        · exact ⟨tj, by rw [getH_setH_ne hij]; exact hgetj, rfl, rfl⟩
      · intro j tj hgetj
        rcases eq_or_ne i j with rfl | hij
        · rw [getH_setH_self hget] at hgetj
          obtain rfl := (Option.some.inj hgetj).symm
          refine ⟨?_, fun _ => hq, ?_, ?_, ?_, fun _ => hcf, ?_, ⟨?_, ?_⟩, ?_,
            hold.hThread_state, ?_, hold.waits_count, hold.ok_closed, ?_, ?_, ?_,
            hold.posted_nodup, hold.posted_used⟩
          · cases hsy : t.syncStart <;> simp [hq, hsy]
          · intro _
            cases hsy : t.syncStart <;> simp [pastStart, hsy]
          · intro hw
            cases hsy : t.syncStart <;> rw [hsy] at hw <;> simp at hw
          · intro id' hid'
            have hid'' : t.hThreadStarted = some id' := hid'
            rw [hst0] at hid''
            obtain rfl := Option.some.inj hid''
            refine ⟨hcpcCW, by cases hsy : t.syncStart <;> simp [hsy], hhist, ?_⟩
            have hoa : Kernel.objAt
                ⟨s.kernel.objs.set id (some true), s.kernel.named⟩ id = some true :=
              objAt_set_self hlt _
            cases hsy : t.syncStart <;> simpa [pastStart, hsy] using hoa
          · intro hsy hl
            have hl' : inLoop (some (if t.syncStart = true then WPC.waitBarrier
                else WPC.getMsg)) = true := hl
            rw [hsy] at hl'
            simp [inLoop] at hl'
          · intro hxn
            have hxn' : t.hThreadExited = none := hxn
            have he := hold.exit_stage.1 hxn'
            refine ⟨he.1, ?_, ?_⟩
            · intro m hm
              have : (some (if t.syncStart = true then WPC.waitBarrier
                  else WPC.getMsg) : Option WPC) = some (WPC.handleMsg m) := hm
              cases hsy : t.syncStart <;> rw [hsy] at this <;> simp at this
            · intro hse
              have : (some (if t.syncStart = true then WPC.waitBarrier
                  else WPC.getMsg) : Option WPC) = some WPC.sigExited := hse
              cases hsy : t.syncStart <;> rw [hsy] at this <;> simp at this
          · intro id2 hid2
            have hid2' : t.hThreadExited = some id2 := hid2
            obtain ⟨h1, _⟩ := hold.exit_stage.2 id2 hid2'
            rw [hcpcCW] at h1
            simp at h1
          · intro hd0 _
            have hd0' : (some (if t.syncStart = true then WPC.waitBarrier
                else WPC.getMsg) : Option WPC) = some WPC.done := hd0
            cases hsy : t.syncStart <;> rw [hsy] at hd0' <;> simp at hd0'
          · have h11 := hold.signals_count
            rw [hpc] at h11
            simp only [pastStart] at h11
            cases hsy : t.syncStart <;> simp [pastStart, hsy, h11]
          · intro id' hid'
            have := hold.hist_lt id' hid'
            simpa [List.length_set] using this
          · intro hok
            have hok' : t.createdOk = true := hok
            rw [hcf] at hok'
            simp at hok'
          · cases hsy : t.syncStart <;> simpa [inHand, hpc, hsy] using hold.acct
        · rw [getH_setH_ne hij] at hgetj
          have holdj := hinv.hinv j tj hgetj
          refine holdj.frame Iff.rfl Iff.rfl (fun hb => hb) (fun p hp => hp)
            ?_ ?_ ?_ ?_
          · simp [List.length_set]
          · intro id' hid'
            obtain ⟨h1, _, _, _⟩ := holdj.started_mem id' hid'
            rw [hcpcCW] at h1
            injection h1 with h1'
            exact absurd h1' hij
          · intro id' hid'
            obtain ⟨h1, _⟩ := holdj.exit_stage.2 id' hid'
            rw [hcpcCW] at h1
            simp at h1
          · intro id' _ hnone
            have hne : id ≠ id' := by
              intro heq
              rw [heq, hnone] at h4f
              cases h4f
            exact (objAt_set_ne hne _).trans hnone
    next hpc => cases h
  next hget => cases h

theorem inv_wSigExited {s s' : Sys} {i : Nat} (h : step s (.wSigExited i) = some s')
    (hinv : Inv s) : Inv s' := by
  simp only [step] at h
  split at h
  next t hget =>
    split at h
    next hpc =>
      obtain rfl := (Option.some.inj h).symm
      have hold := hinv.hinv i t hget
      have hq : t.queueCreated = true :=
        hold.queue_iff.mpr (by rw [hpc]; exact ⟨by simp, by simp⟩)
      cases hex : t.hThreadExited with
      | none => exact absurd hpc (hold.exit_stage.1 hex).2.2
      | some id =>
        obtain ⟨h1, h2⟩ := hold.exit_stage.2 id hex
        have ho : s.kernel.objAt id = some false ∧ exitCount t.queue = 0 := by
          rcases h2 with ⟨_, _, hse, _, _⟩ | ⟨_, ⟨p, hp2⟩, _⟩ | ⟨hc0, _, hob⟩ |
            ⟨_, hpd, _⟩
          · exact absurd hpc hse
          · rw [hpc] at hp2
            simp at hp2
          · exact ⟨hob, hc0⟩
          · rw [hpc] at hpd
            simp at hpd
        have hr : s.kernel.setEventH (some id) =
            ({ s.kernel with objs := s.kernel.objs.set id (some true) }, true) := by
          simpa [Kernel.setEventH] using Kernel.setEvent_live ho.1
        rw [hr]
        have hlt : id < s.kernel.objs.length := Kernel.objAt_lt ho.1
        refine ⟨?_, ?_, scriptOk_of_parts hinv.script_ok rfl rfl,
          distinct_setH hget rfl hinv.distinct, ?_⟩
        · simp [Sys.setH, hinv.fault_false]
        · refine namedOk_of_parts hinv.named_ok rfl rfl ?_
          intro j tj hgetj
          rcases eq_or_ne i j with rfl | hij
          · rw [hget] at hgetj
            obtain rfl := Option.some.inj hgetj
            exact ⟨_, getH_setH_self hget, rfl, hex.symm⟩
          · exact ⟨tj, by rw [getH_setH_ne hij]; exact hgetj, rfl, rfl⟩
        · intro j tj hgetj
          rcases eq_or_ne i j with rfl | hij
          · rw [getH_setH_self hget] at hgetj
            obtain rfl := (Option.some.inj hgetj).symm
            refine ⟨by simp [hq], fun _ => hq, fun _ => rfl, ?_, ?_, hold.cw_not_ok,
              fun hsy _ => hold.barrier_gate hsy (by rw [hpc]; rfl), ⟨?_, ?_⟩, ?_,
              hold.hThread_state, ?_, hold.waits_count, hold.ok_closed, ?_, ?_, ?_,
              hold.posted_nodup, hold.posted_used⟩
            · intro hw
              simp at hw
            · intro id' hid'
              have hid'' : t.hThreadStarted = some id' := hid'
              obtain ⟨hc1, _, _, _⟩ := hold.started_mem id' hid''
              rw [h1] at hc1
              simp at hc1
            · intro hxn
              have hxn' : (some id : Option Nat) = none := hxn
              cases hxn'
            · intro id2 hid2
              have hid2' : (some id : Option Nat) = some id2 := hid2
              obtain rfl := Option.some.inj hid2'
              refine ⟨h1, Or.inr (Or.inr (Or.inr ⟨ho.2, rfl, ?_⟩))⟩
              exact objAt_set_self hlt _
            · intro _ _
              exact fun hn =>
                Option.noConfusion (show (some id : Option Nat) = none from hn)
            · have h11 := hold.signals_count
              rw [hpc] at h11
              exact h11
            · intro id' hid'
              have := hold.hist_lt id' hid'
              simpa [List.length_set] using this
            · intro hok id' hid'
              have hdead := hold.ok_hist_dead hok id' hid'
              have hne : id ≠ id' := by
                intro heq
                rw [heq, hdead] at ho
                cases ho.1
              exact (objAt_set_ne hne _).trans hdead
            · simpa [inHand, hpc] using hold.acct
          · rw [getH_setH_ne hij] at hgetj
            have holdj := hinv.hinv j tj hgetj
            refine holdj.frame Iff.rfl Iff.rfl (fun hb => hb) (fun p hp => hp)
              ?_ ?_ ?_ ?_
            · simp [List.length_set]
            · intro id' hid'
              obtain ⟨hc1, _, _, _⟩ := holdj.started_mem id' hid'
              rw [h1] at hc1
              simp at hc1
            · intro id' hid'
              obtain ⟨hc1, _⟩ := holdj.exit_stage.2 id' hid'
              rw [h1] at hc1
              injection hc1 with hc1'
              exact absurd hc1' hij
            · intro id' _ hnone
              have hne : id ≠ id' := by
                intro heq
                rw [heq, hnone] at ho
                cases ho.1
              exact (objAt_set_ne hne _).trans hnone
    next hpc => cases h
  next hget => cases h

theorem inv_cBegin {s s' : Sys} (h : step s .cBegin = some s') (hinv : Inv s) :
    Inv s' := by
  simp only [step] at h
  split at h
  next hcpc =>
    have hnm : s.kernel.named = [] := by
      have hn := hinv.named_ok
      unfold NamedOk at hn
      rw [hcpc] at hn
      exact hn
    split at h
    next => cases h
    next i rest hscr =>
      split at h
      next t hget =>
        have hold := hinv.hinv i t hget
        split at h
        next htt =>
          -- IsCreated(): CreateThread returns FALSE, state untouched.
          obtain rfl := (Option.some.inj h).symm
          refine ⟨hinv.fault_false, ?_, ?_, hinv.distinct, hinv.hinv⟩
          · exact namedOk_of_parts hinv.named_ok rfl rfl
              (fun j tj hj => ⟨tj, hj, rfl, rfl⟩)
          · simp [ScriptOk, hcpc]
        next htt =>
          -- spawn a fresh worker after creating the named created-event
          obtain rfl := (Option.some.inj h).symm
          have htf : t.hThread = false := by
            simpa using htt
          have hce : s.kernel.createEvent .createdName =
              ({ objs := s.kernel.objs ++ [some false],
                 named := [(.createdName, s.kernel.objs.length)] },
               s.kernel.objs.length) := by
            simp [Kernel.createEvent, Kernel.lookupName, hnm]
          rw [hce]
          have hxnone : t.hThreadExited = none := by
            cases hex : t.hThreadExited with
            | none => rfl
            | some x =>
                have := (hold.exit_stage.2 x hex).1
                rw [hcpc] at this
                cases this
          refine ⟨hinv.fault_false, ?_, ?_, ?_, ?_⟩
          · exact ⟨_, _, getH_setH_self hget, rfl, rfl⟩
          · exact ⟨rest, hscr⟩
          · intro a b ta tb hab hga hgb x y hx hy
            rcases eq_or_ne i a with rfl | hia
            · rw [getH_setH_self hget] at hga
              obtain rfl := (Option.some.inj hga).symm
              rw [getH_setH_ne hab] at hgb
              have hx' : (some s.kernel.objs.length : Option Nat) = some x := hx
              obtain rfl := Option.some.inj hx'
              have := (hinv.hinv b tb hgb).hist_lt y hy
              omega
            · rw [getH_setH_ne hia] at hga
              rcases eq_or_ne i b with rfl | hib
              · rw [getH_setH_self hget] at hgb
                obtain rfl := (Option.some.inj hgb).symm
                have hy' : (some s.kernel.objs.length : Option Nat) = some y := hy
                obtain rfl := Option.some.inj hy'
                have := (hinv.hinv a ta hga).hist_lt x hx
                omega
              · rw [getH_setH_ne hib] at hgb
                exact hinv.distinct a b ta tb hab hga hgb x y hx hy
          · intro j tj hgetj
            rcases eq_or_ne i j with rfl | hij
            · rw [getH_setH_self hget] at hgetj
              obtain rfl := (Option.some.inj hgetj).symm
              refine ⟨by simp, ?_, ?_, fun _ => rfl, ?_, fun _ => rfl, ?_, ⟨?_, ?_⟩,
                ?_, fun _ => Or.inl rfl, by simp [pastStart], by simp, ?_, ?_, ?_,
                by simp [inHand, workPayloads], by simp, ?_⟩
              · intro hk
                have hk' : (false = true) := hk
                simp at hk'
              · intro hk
                have hk' : (false = true) := hk
                simp at hk'
              · intro id hid
                have hid' : (some s.kernel.objs.length : Option Nat) = some id := hid
                obtain rfl := Option.some.inj hid'
                exact ⟨rfl, by simp, rfl, objAt_append_self⟩
              · intro _ hl
                have hl' : inLoop (some WPC.peek) = true := hl
                simp [inLoop] at hl'
              · intro _
                exact ⟨by simp [exitCount], by simp, by simp⟩
              · intro id hid
                have hid' : t.hThreadExited = some id := hid
                rw [hxnone] at hid'
                cases hid'
              · intro hd0 _
                have hd0' : (some WPC.peek : Option WPC) = some WPC.done := hd0
                simp at hd0'
              · intro hk
                have hk' : (false = true) := hk
                simp at hk'
              · intro id hid
                have hid' : (some s.kernel.objs.length : Option Nat) = some id := hid
                obtain rfl := Option.some.inj hid'
                simp
              · intro hk
                have hk' : (false = true) := hk
                simp at hk'
              · intro p hp
                have hp' : p ∈ ([] : List Nat) := hp
                simp at hp'
            · rw [getH_setH_ne hij] at hgetj
              have holdj := hinv.hinv j tj hgetj
              refine holdj.frame ?_ ?_ (fun hb => hb) (fun p hp => hp) ?_ ?_ ?_ ?_
              · constructor
                · intro hx
                  rw [hcpc] at hx
                  cases hx
                · intro hx
                  injection hx with hx'
                  exact absurd hx' hij
              · constructor
                · intro hx
                  rw [hcpc] at hx
                  cases hx
                · intro hx
                  cases hx
              · simp
              · intro id hid
                obtain ⟨h1, _, _, _⟩ := holdj.started_mem id hid
                rw [hcpc] at h1
                cases h1
              · intro id hid
                obtain ⟨h1, _⟩ := holdj.exit_stage.2 id hid
                rw [hcpc] at h1
                cases h1
              · intro id hlt hnone
                exact (objAt_append_lt hlt).trans hnone
      next hget => cases h
    next rest hscr =>
      -- StartAllThreads()
      obtain rfl := (Option.some.inj h).symm
      refine ⟨hinv.fault_false, ?_, ?_, hinv.distinct, ?_⟩
      · exact namedOk_of_parts hinv.named_ok rfl rfl
          (fun j tj hj => ⟨tj, hj, rfl, rfl⟩)
      · simp [ScriptOk, startAllThreads, hcpc]
      · intro j tj hgetj
        exact (hinv.hinv j tj hgetj).frame Iff.rfl Iff.rfl (fun _ => rfl)
          (fun p hp => hp) le_rfl (fun id _ => rfl) (fun id _ => rfl)
          (fun id _ hh => hh)
    next i p rest hscr =>
      -- PostThreadMessage(WM_THREAD_MSG, p)
      split at h
      next t hget =>
        split at h
        next hguard =>
          obtain rfl := (Option.some.inj h).symm
          have hold := hinv.hinv i t hget
          refine ⟨hinv.fault_false, ?_, ?_, ?_, ?_⟩
          · refine namedOk_of_parts hinv.named_ok rfl rfl ?_
            intro j tj hgetj
            rcases eq_or_ne i j with rfl | hij
            · rw [hget] at hgetj
              obtain rfl := Option.some.inj hgetj
              refine ⟨_, getH_setH_self hget, ?_, ?_⟩ <;>
                · unfold TW.postWork
                  split <;> rfl
            · exact ⟨tj, by rw [getH_setH_ne hij]; exact hgetj, rfl, rfl⟩
          · simp [ScriptOk, Sys.setH, hcpc]
          · refine distinct_setH hget ?_ hinv.distinct
            unfold TW.postWork
            split <;> rfl
          · intro j tj hgetj
            rcases eq_or_ne i j with rfl | hij
            · rw [getH_setH_self hget] at hgetj
              obtain rfl := (Option.some.inj hgetj).symm
              by_cases hpo : postOutcome t = PostOutcome.ok
              · have hpw : t.postWork p = { t with
                    queue := t.queue ++ [⟨.work, p⟩],
                    posted := t.posted ++ [p] } := by
                  simp [TW.postWork, hpo]
                rw [hpw]
                refine ⟨hold.queue_iff, hold.createdOk_queue, hold.createdOk_past,
                  hold.early_cpc, hold.started_mem, hold.cw_not_ok, hold.barrier_gate,
                  ⟨?_, ?_⟩, hold.done_exited, hold.hThread_state, hold.signals_count,
                  hold.waits_count, hold.ok_closed, hold.hist_lt, hold.ok_hist_dead,
                  ?_, ?_, ?_⟩
                · intro hn
                  have hn' : t.hThreadExited = none := hn
                  have he := hold.exit_stage.1 hn'
                  refine ⟨?_, he.2.1, he.2.2⟩
                  have := he.1
                  simp [exitCount, List.countP_append] at this ⊢
                  exact this
                · intro id hid
                  have hid' : t.hThreadExited = some id := hid
                  have := (hold.exit_stage.2 id hid').1
                  rw [hcpc] at this
                  cases this
                · show t.delivered ++ inHand t ++
                      workPayloads (t.queue ++ [⟨Tag.work, p⟩]) = t.posted ++ [p]
                  rw [show workPayloads (t.queue ++ [⟨Tag.work, p⟩]) =
                      workPayloads t.queue ++ [p] from by
                    simp [workPayloads, List.filterMap_append]]
                  rw [← List.append_assoc, hold.acct]
                · have hnp : p ∉ t.posted := fun hmem =>
                    hguard.2 ((hold.posted_used p hmem).1)
                  simp [List.nodup_append, hold.posted_nodup, hnp]
                · intro q hq
                  have hq' : q ∈ t.posted ++ [p] := hq
                  rcases List.mem_append.mp hq' with hq2 | hq2
                  · obtain ⟨hu, hz⟩ := hold.posted_used q hq2
                    exact ⟨List.mem_append.mpr (Or.inl hu), hz⟩
                  · have : q = p := by simpa using hq2
                    subst this
                    exact ⟨List.mem_append.mpr (Or.inr (by simp)), hguard.1⟩
              · have hpw : t.postWork p = t := by
                  simp [TW.postWork, hpo]
                rw [hpw]
                exact hold.frame Iff.rfl Iff.rfl (fun hb => hb)
                  (fun q hq => List.mem_append.mpr (Or.inl hq)) le_rfl
                  (fun id _ => rfl) (fun id _ => rfl) (fun id _ hh => hh)
            · rw [getH_setH_ne hij] at hgetj
              exact (hinv.hinv j tj hgetj).frame Iff.rfl Iff.rfl (fun hb => hb)
                (fun q hq => List.mem_append.mpr (Or.inl hq)) le_rfl
                (fun id _ => rfl) (fun id _ => rfl) (fun id _ hh => hh)
        next hguard => cases h
      next hget => cases h
    next i rest hscr =>
      -- ExitThread()
      split at h
      next t hget =>
        have hold := hinv.hinv i t hget
        split at h
        next htt =>
          -- live thread: create exit event, post WM_EXIT_THREAD
          obtain rfl := (Option.some.inj h).symm
          have hce : s.kernel.createEvent .exitedName =
              ({ objs := s.kernel.objs ++ [some false],
                 named := [(.exitedName, s.kernel.objs.length)] },
               s.kernel.objs.length) := by
            simp [Kernel.createEvent, Kernel.lookupName, hnm]
          rw [hce]
          have hxnone : t.hThreadExited = none := by
            cases hex : t.hThreadExited with
            | none => rfl
            | some x =>
                have := (hold.exit_stage.2 x hex).1
                rw [hcpc] at this
                cases this
          have hok : t.createdOk = true := by
            rcases hold.hThread_state htt with hc | hc
            · rw [hcpc] at hc
              cases hc
            · exact hc
          have hqc : t.queueCreated = true := hold.createdOk_queue hok
          have hpast : pastStart t.wpc = true := hold.createdOk_past hok
          have hwn : t.wpc ≠ none := (pastStart_true_facts hpast).1
          have hwd : t.wpc ≠ some WPC.done := by
            intro hd0
            exact absurd hxnone (hold.done_exited hd0 htt)
          have hpo : postOutcome { t with
              hThreadExited := some s.kernel.objs.length } = PostOutcome.ok := by
            simp [postOutcome, hwn, hwd, hqc]
          have hps : TW.postStop { t with
              hThreadExited := some s.kernel.objs.length } = { t with
              hThreadExited := some s.kernel.objs.length,
              queue := t.queue ++ [⟨.exit, 0⟩] } := by
            simp [TW.postStop, hpo]
          rw [hps]
          have he0 := hold.exit_stage.1 hxnone
          refine ⟨hinv.fault_false, ?_, ?_, ?_, ?_⟩
          · exact ⟨_, _, getH_setH_self hget, rfl, rfl⟩
          · exact ⟨rest, hscr⟩
          · exact distinct_setH hget rfl hinv.distinct
          · intro j tj hgetj
            rcases eq_or_ne i j with rfl | hij
            · rw [getH_setH_self hget] at hgetj
              obtain rfl := (Option.some.inj hgetj).symm
              refine ⟨hold.queue_iff, fun _ => hqc, fun _ => hpast, ?_, ?_, ?_,
                hold.barrier_gate, ⟨?_, ?_⟩, ?_, fun _ => Or.inr hok,
                hold.signals_count, hold.waits_count, hold.ok_closed, ?_, ?_, ?_,
                hold.posted_nodup, hold.posted_used⟩
              · intro hw
                have := hold.early_cpc hw
                rw [hcpc] at this
                cases this
              · intro id hid
                have := (hold.started_mem id hid).1
                rw [hcpc] at this
                cases this
              · intro hc
                cases hc
              · intro hn
                have hn' : (some s.kernel.objs.length : Option Nat) = none := hn
                cases hn'
              · intro id hid
                have hid' : (some s.kernel.objs.length : Option Nat) = some id := hid
                obtain rfl := Option.some.inj hid'
                refine ⟨rfl, Or.inl ⟨?_, he0.2.1, he0.2.2, hwd, objAt_append_self⟩⟩
                have hc0 := he0.1
                simp only [exitCount] at hc0 ⊢
                rw [List.countP_append, hc0]
                simp [List.countP_cons]
              · intro _ _
                exact fun hn => Option.noConfusion
                  (show (some s.kernel.objs.length : Option Nat) = none from hn)
              · intro id hid
                exact lt_of_lt_of_le (hold.hist_lt id hid) (by simp)
              · intro hk id hid
                have hdead := hold.ok_hist_dead hk id hid
                exact (objAt_append_lt (hold.hist_lt id hid)).trans hdead
              · show t.delivered ++ inHand t ++
                    workPayloads (t.queue ++ [⟨Tag.exit, 0⟩]) = t.posted
                rw [show workPayloads (t.queue ++ [⟨Tag.exit, 0⟩]) =
                    workPayloads t.queue from by
                  simp [workPayloads, List.filterMap_append]]
                exact hold.acct
            · rw [getH_setH_ne hij] at hgetj
              have holdj := hinv.hinv j tj hgetj
              refine holdj.frame ?_ ?_ (fun hb => hb) (fun q hq => hq) ?_ ?_ ?_ ?_
              · constructor
                · intro hx
                  rw [hcpc] at hx
                  cases hx
                · intro hx
                  cases hx
              · constructor
                · intro hx
                  rw [hcpc] at hx
                  cases hx
                · intro hx
                  injection hx with hx'
                  exact absurd hx' hij
              · simp
              · intro id hid
                obtain ⟨h1, _, _, _⟩ := holdj.started_mem id hid
                rw [hcpc] at h1
                cases h1
              · intro id hid
                obtain ⟨h1, _⟩ := holdj.exit_stage.2 id hid
                rw [hcpc] at h1
                cases h1
              · intro id hlt hnone
                exact (objAt_append_lt hlt).trans hnone
        next htt =>
          -- m_hThread == INVALID_HANDLE_VALUE: no-op
          obtain rfl := (Option.some.inj h).symm
          refine ⟨hinv.fault_false, ?_, ?_, hinv.distinct, hinv.hinv⟩
          · exact namedOk_of_parts hinv.named_ok rfl rfl
              (fun j tj hj => ⟨tj, hj, rfl, rfl⟩)
          · simp [ScriptOk, hcpc]
      next hget => cases h
  next hcpc => cases h

theorem inv_cFinishCreate {s s' : Sys} (h : step s .cFinishCreate = some s')
    (hinv : Inv s) : Inv s' := by
  simp only [step] at h
  split at h
  next i heqc =>
    split at h
    next i' rest hscr =>
      split at h
      next hii =>
        obtain rfl := hii.symm
        split at h
        next t hget =>
          split at h
          next id hst =>
            split at h
            next hsg =>
              obtain rfl := (Option.some.inj h).symm
              have hold := hinv.hinv i t hget
              have hsg' : s.kernel.objAt id = some true := by
                simpa [Kernel.signaledAt] using hsg
              obtain ⟨_, _, hhist, h4⟩ := hold.started_mem id hst
              have hpast : pastStart t.wpc = true := by
                rw [h4] at hsg'
                exact Option.some.inj hsg'
              have hlt : id < s.kernel.objs.length := Kernel.objAt_lt h4
              have hqc : t.queueCreated = true := hold.queue_iff.mpr
                ⟨(pastStart_true_facts hpast).1, (pastStart_true_facts hpast).2.1⟩
              have hcf : t.createdOk = false := hold.cw_not_ok heqc
              have hxnone : t.hThreadExited = none := by
                cases hex : t.hThreadExited with
                | none => rfl
                | some x =>
                    have := (hold.exit_stage.2 x hex).1
                    rw [heqc] at this
                    cases this
              have hnm : s.kernel.named = [(EvName.createdName, id)] := by
                have hn := hinv.named_ok
                unfold NamedOk at hn
                rw [heqc] at hn
                obtain ⟨t0, id0, hget0, hst0, hnm0⟩ := hn
                rw [hget] at hget0
                obtain rfl := (Option.some.inj hget0).symm
                rw [hst] at hst0
                obtain rfl := Option.some.inj hst0
                exact hnm0
              refine ⟨hinv.fault_false, ?_, ?_, distinct_setH hget rfl hinv.distinct, ?_⟩
              · show Kernel.named (s.kernel.close id) = []
                simp [Kernel.close, hnm]
              · simp [ScriptOk, Sys.setH]
              · intro j tj hgetj
                rcases eq_or_ne i j with rfl | hij
                · rw [getH_setH_self hget] at hgetj
                  obtain rfl := (Option.some.inj hgetj).symm
                  refine ⟨hold.queue_iff, fun _ => hqc, fun _ => hpast, ?_, ?_, ?_,
                    hold.barrier_gate, ⟨?_, ?_⟩, ?_, fun _ => Or.inr rfl,
                    hold.signals_count, ?_, fun _ => rfl, ?_, ?_, hold.acct,
                    hold.posted_nodup, hold.posted_used⟩
                  · intro hw
                    have hf := pastStart_true_facts hpast
                    rcases hw with hw | hw
                    · exact absurd hw hf.2.1
                    · exact absurd hw hf.2.2
                  · intro id2 hid2
                    have hid2' : (none : Option Nat) = some id2 := hid2
                    cases hid2'
                  · intro hc
                    cases hc
                  · intro _
                    exact hold.exit_stage.1 hxnone
                  · intro id2 hid2
                    have hid2' : t.hThreadExited = some id2 := hid2
                    rw [hxnone] at hid2'
                    cases hid2'
                  · intro hdw ht2
                    exact absurd hxnone (hold.done_exited hdw ht2)
                  · have := hold.waits_count
                    rw [hcf] at this
                    simp at this
                    simp [this]
                  · intro id2 hid2
                    have hid2' : t.startedIdHist = some id2 := hid2
                    have := hold.hist_lt id2 hid2'
                    simpa [Kernel.close, List.length_set] using this
                  · intro _ id2 hid2
                    have hid2' : t.startedIdHist = some id2 := hid2
                    rw [hhist] at hid2'
                    obtain rfl := Option.some.inj hid2'
                    exact objAt_set_self hlt none
                · rw [getH_setH_ne hij] at hgetj
                  have holdj := hinv.hinv j tj hgetj
                  refine holdj.frame ?_ ?_ (fun hb => hb) (fun q hq => hq) ?_ ?_ ?_ ?_
                  · constructor
                    · intro hx
                      rw [heqc] at hx
                      injection hx with hx'
                      exact absurd hx' hij
                    · intro hx
                      cases hx
                  · constructor
                    · intro hx
                      rw [heqc] at hx
                      cases hx
                    · intro hx
                      cases hx
                  · simp [Kernel.close, List.length_set]
                  · intro id2 hid2
                    obtain ⟨h1, _, _, _⟩ := holdj.started_mem id2 hid2
                    rw [heqc] at h1
                    injection h1 with h1'
                    exact absurd h1' hij
                  · intro id2 hid2
                    obtain ⟨h1, _⟩ := holdj.exit_stage.2 id2 hid2
                    rw [heqc] at h1
                    cases h1
                  · intro id2 hlt2 hnone
                    rcases eq_or_ne id id2 with rfl | hne
                    · exact objAt_set_self hlt none
                    · exact (objAt_set_ne hne none).trans hnone
            next hsg => cases h
          next hst => cases h
        next hget => cases h
      next hii => cases h
    next => cases h
  next heqc => cases h

theorem inv_cFinishExit {s s' : Sys} (h : step s .cFinishExit = some s')
    (hinv : Inv s) : Inv s' := by
  simp only [step] at h
  split at h
  next i heqc =>
    split at h
    next i' rest hscr =>
      split at h
      next hii =>
        obtain rfl := hii.symm
        split at h
        next t hget =>
          split at h
          next id hxe =>
            split at h
            next hsg =>
              obtain rfl := (Option.some.inj h).symm
              have hold := hinv.hinv i t hget
              have hsg' : s.kernel.objAt id = some true := by
                simpa [Kernel.signaledAt] using hsg
              obtain ⟨_, hdisj⟩ := hold.exit_stage.2 id hxe
              have hdn : t.wpc = some WPC.done ∧ exitCount t.queue = 0 := by
                rcases hdisj with ⟨_, _, _, _, ho⟩ | ⟨_, _, ho⟩ | ⟨_, _, ho⟩ |
                  ⟨hc0, hw, _⟩
                · rw [ho] at hsg'
                  cases Option.some.inj hsg'
                · rw [ho] at hsg'
                  cases Option.some.inj hsg'
                · rw [ho] at hsg'
                  cases Option.some.inj hsg'
                · exact ⟨hw, hc0⟩
              have hlt : id < s.kernel.objs.length := Kernel.objAt_lt hsg'
              have hstn : t.hThreadStarted = none := by
                cases hss : t.hThreadStarted with
                | none => rfl
                | some x =>
                    have := (hold.started_mem x hss).1
                    rw [heqc] at this
                    cases this
              have hnm : s.kernel.named = [(EvName.exitedName, id)] := by
                have hn := hinv.named_ok
                unfold NamedOk at hn
                rw [heqc] at hn
                obtain ⟨t0, id0, hget0, hst0, hnm0⟩ := hn
                rw [hget] at hget0
                obtain rfl := (Option.some.inj hget0).symm
                rw [hxe] at hst0
                obtain rfl := Option.some.inj hst0
                exact hnm0
              refine ⟨hinv.fault_false, ?_, ?_, distinct_setH hget rfl hinv.distinct, ?_⟩
              · show Kernel.named (s.kernel.close id) = []
                simp [Kernel.close, hnm]
              · simp [ScriptOk, Sys.setH]
              · intro j tj hgetj
                rcases eq_or_ne i j with rfl | hij
                · rw [getH_setH_self hget] at hgetj
                  obtain rfl := (Option.some.inj hgetj).symm
                  refine ⟨hold.queue_iff, hold.createdOk_queue, hold.createdOk_past,
                    ?_, ?_, ?_, hold.barrier_gate, ⟨?_, ?_⟩, ?_, ?_,
                    hold.signals_count, hold.waits_count, hold.ok_closed, ?_, ?_,
                    hold.acct, hold.posted_nodup, hold.posted_used⟩
                  · intro hw
                    rcases hw with hw | hw <;>
                      · have hw' : t.wpc = _ := hw
                        rw [hdn.1] at hw'
                        simp at hw'
                  · intro id2 hid2
                    have hid2' : t.hThreadStarted = some id2 := hid2
                    rw [hstn] at hid2'
                    cases hid2'
                  · intro hc
                    cases hc
                  · intro _
                    refine ⟨hdn.2, ?_, ?_⟩
                    · intro m hm
                      have hm' : t.wpc = some (WPC.handleMsg m) := hm
                      rw [hdn.1] at hm'
                      simp at hm'
                    · intro hse
                      have hse' : t.wpc = some WPC.sigExited := hse
                      rw [hdn.1] at hse'
                      simp at hse'
                  · intro id2 hid2
                    have hid2' : (none : Option Nat) = some id2 := hid2
                    cases hid2'
                  · intro _ ht2
                    have ht2' : (false = true) := ht2
                    simp at ht2'
                  · intro ht2
                    have ht2' : (false = true) := ht2
                    simp at ht2'
                  · intro id2 hid2
                    have hid2' : t.startedIdHist = some id2 := hid2
                    have := hold.hist_lt id2 hid2'
                    simpa [Kernel.close, List.length_set] using this
                  · intro hk id2 hid2
                    have hid2' : t.startedIdHist = some id2 := hid2
                    have hdead := hold.ok_hist_dead hk id2 hid2'
                    rcases eq_or_ne id id2 with rfl | hne
                    · rw [hdead] at hsg'
                      cases hsg'
                    · exact (objAt_set_ne hne none).trans hdead
                · rw [getH_setH_ne hij] at hgetj
                  have holdj := hinv.hinv j tj hgetj
                  refine holdj.frame ?_ ?_ (fun hb => hb) (fun q hq => hq) ?_ ?_ ?_ ?_
                  · constructor
                    · intro hx
                      rw [heqc] at hx
                      cases hx
                    · intro hx
                      cases hx
                  · constructor
                    · intro hx
                      rw [heqc] at hx
                      injection hx with hx'
                      exact absurd hx' hij
                    · intro hx
                      cases hx
                  · simp [Kernel.close, List.length_set]
                  · intro id2 hid2
                    obtain ⟨h1, _, _, _⟩ := holdj.started_mem id2 hid2
                    rw [heqc] at h1
                    cases h1
                  · intro id2 hid2
                    obtain ⟨h1, _⟩ := holdj.exit_stage.2 id2 hid2
                    rw [heqc] at h1
                    injection h1 with h1'
                    exact absurd h1' hij
                  · intro id2 hlt2 hnone
                    rcases eq_or_ne id id2 with rfl | hne
                    · exact objAt_set_self hlt none
                    · exact (objAt_set_ne hne none).trans hnone
            next hsg => cases h
          next hxe => cases h
        next hget => cases h
      next hii => cases h
    next => cases h
  next heqc => cases h

/-! ### The invariant holds in every reachable state -/

theorem inv_step {s : Sys} {a : Act} {s' : Sys} (h : step s a = some s')
    (hinv : Inv s) : Inv s' := by
  cases a with
  | wPeek i => exact inv_wPeek h hinv
  | wSigStarted i => exact inv_wSigStarted h hinv
  | wBarrier i => exact inv_wBarrier h hinv
  | wGet i => exact inv_wGet h hinv
  | wHandle i => exact inv_wHandle h hinv
  | wSigExited i => exact inv_wSigExited h hinv
  | cBegin => exact inv_cBegin h hinv
  | cFinishCreate => exact inv_cFinishCreate h hinv
  | cFinishExit => exact inv_cFinishExit h hinv

theorem inv_runT : ∀ (acts : List Act) (s : Sys), Inv s → Inv (runT s acts) := by
  intro acts
  induction acts with
  | nil => exact fun s h => h
  | cons a rest ih =>
      intro s hinv
      cases hstep : step s a with
      | none => simpa [runT, hstep] using ih s hinv
      | some s2 => simpa [runT, hstep] using ih s2 (inv_step hstep hinv)

theorem inv_mkInit (syncs : List Bool) (script : List Cmd) :
    Inv (Sys.mkInit syncs script) := by
  refine ⟨rfl, rfl, trivial, ?_, ?_⟩
  · intro a b ta tb hab hga hgb x y hx hy
    rw [Sys.mkInit] at hga
    simp only [List.getElem?_map] at hga
    obtain ⟨v, _, rfl⟩ := Option.map_eq_some'.mp hga
    have hx' : (none : Option Nat) = some x := hx
    cases hx'
  · intro i t hget
    rw [Sys.mkInit] at hget
    simp only [List.getElem?_map] at hget
    obtain ⟨v, _, rfl⟩ := Option.map_eq_some'.mp hget
    constructor <;>
      simp [TW.mkInit, inHand, workPayloads, inLoop, pastStart, exitCount, ExitNone,
        ExitStage]

theorem reaches_inv {syncs : List Bool} {script : List Cmd} {s : Sys}
    (h : Reaches (Sys.mkInit syncs script) s) : Inv s := by
  obtain ⟨acts, hrun⟩ := h
  rw [← hrun]
  exact inv_runT acts _ (inv_mkInit syncs script)

theorem step_barrier_mono {s s' : Sys} {a : Act} (h : step s a = some s')
    (hb : s.barrier = true) : s'.barrier = true := by
  cases a <;> simp only [step] at h <;> (repeat' split at h) <;>
    first
      | (obtain rfl := (Option.some.inj h).symm
         simpa [Sys.setH, startAllThreads] using hb)
      | cases h

/-! ### Theorems for the claims -/

/-- Claim C1: in the spawned thread's entry routine, the created-signal is
set only after the non-consuming `PeekMessage` probe has forced the message
queue into existence; hence in every reachable state, a signaled
created-signal object implies the queue exists, and posting work to a
handle whose `create()` returned successfully can never fail for
queue-does-not-exist reasons. -/
theorem created_signal_implies_queue (syncs : List Bool) (script : List Cmd)
    (s : Sys) (hreach : Reaches (Sys.mkInit syncs script) s) (i : Nat) (t : TW)
    (ht : s.handles[i]? = some t) :
    (∀ id, t.hThreadStarted = some id → s.kernel.signaledAt id = true →
      t.queueCreated = true) ∧
    (t.createdOk = true → postOutcome t ≠ .noQueue) := by
  have hinv := reaches_inv hreach
  have hold := hinv.hinv i t ht
  constructor
  · intro id hid hsig
    obtain ⟨_, _, _, h4⟩ := hold.started_mem id hid
    have hsig' : s.kernel.objAt id = some true := by
      simpa [Kernel.signaledAt] using hsig
    rw [h4] at hsig'
    have hpast : pastStart t.wpc = true := Option.some.inj hsig'
    exact hold.queue_iff.mpr
      ⟨(pastStart_true_facts hpast).1, (pastStart_true_facts hpast).2.1⟩
  · intro hok hcon
    have hq := hold.createdOk_queue hok
    unfold postOutcome at hcon
    split at hcon
    · cases hcon
    · split at hcon
      next hqf =>
        rw [hq] at hqf
        cases hqf
      next => cases hcon

/-- Claim C1 witness: in the demo run, after `workerThread1.CreateThread()`
returns, posting to worker 0 cannot fail for queue-absence reasons. -/
theorem created_signal_implies_queue_witness :
    Reaches demoInit demoAfterCreate0 ∧
    demoAfterCreate0.handles[0]? = some demoT1 ∧
    demoT1.createdOk = true ∧ postOutcome demoT1 ≠ .noQueue :=
  ⟨⟨dActsCreate0, rfl⟩, by decide, by decide,
    (created_signal_implies_queue [true, true] demoScript demoAfterCreate0
      ⟨dActsCreate0, rfl⟩ 0 demoT1 (by decide)).2 (by decide)⟩

/-- Claim C2: a sync-start worker is in (or past) its work loop only if
`StartAllThreads` has already signaled the shared release event; whenever
the event is signaled, a worker sitting at the barrier wait is not
blocked (its wait step is enabled); and no step ever un-signals the
manual-reset release event, so a worker that reaches the barrier after
the release does not block either. -/
theorem sync_start_barrier (syncs : List Bool) (script : List Cmd) (s : Sys)
    (hreach : Reaches (Sys.mkInit syncs script) s) (i : Nat) (t : TW)
    (ht : s.handles[i]? = some t) :
    (t.syncStart = true → inLoop t.wpc = true → s.barrier = true) ∧
    (t.wpc = some .waitBarrier → s.barrier = true →
      (step s (.wBarrier i)).isSome = true) ∧
    (∀ (s2 s3 : Sys) (a : Act), step s2 a = some s3 → s2.barrier = true →
      s3.barrier = true) := by
  have hinv := reaches_inv hreach
  have hold := hinv.hinv i t ht
  refine ⟨hold.barrier_gate, ?_, fun s2 s3 a h hb => step_barrier_mono h hb⟩
  intro hpc hb
  simp [step, ht, hpc, hb]

/-- Claim C2 witness: in the demo run, after `StartAllThreads`, worker 0
is in its loop with the barrier released, and worker 1 — still at the
barrier — is not blocked. -/
theorem sync_start_barrier_witness :
    Reaches demoInit demoAfterStart ∧
    demoAfterStart.handles[0]? = some demoT2a ∧
    demoT2a.syncStart = true ∧ inLoop demoT2a.wpc = true ∧
    demoAfterStart.barrier = true ∧
    demoAfterStart.handles[1]? = some demoT2b ∧
    demoT2b.wpc = some .waitBarrier ∧
    (step demoAfterStart (.wBarrier 1)).isSome = true :=
  ⟨⟨dActsStarted, rfl⟩, by decide, by decide, by decide,
    (sync_start_barrier [true, true] demoScript demoAfterStart
      ⟨dActsStarted, rfl⟩ 0 demoT2a (by decide)).1 (by decide) (by decide),
    by decide, by decide,
    (sync_start_barrier [true, true] demoScript demoAfterStart
      ⟨dActsStarted, rfl⟩ 1 demoT2b (by decide)).2.1 (by decide) (by decide)⟩

/-- Claim C5: `StartAllThreads` is idempotent — the shared manual-reset
release event is simply set, so repeated calls leave the state exactly as
after the first — and no step of the system ever un-signals it. -/
theorem startAllThreads_idempotent :
    (∀ s : Sys, startAllThreads (startAllThreads s) = startAllThreads s) ∧
    (∀ s : Sys, (startAllThreads s).barrier = true) ∧
    (∀ (s s' : Sys) (a : Act), step s a = some s' → s.barrier = true →
      s'.barrier = true) :=
  ⟨fun _ => rfl, fun _ => rfl, fun _ _ _ h hb => step_barrier_mono h hb⟩

/-- Claim C5 witness: concrete idempotence and signal persistence in the
demo run. -/
theorem startAllThreads_idempotent_witness :
    startAllThreads (startAllThreads demoInit) = startAllThreads demoInit ∧
    (startAllThreads demoInit).barrier = true ∧
    step demoAfterStart (.wBarrier 1) = some demoStep5 ∧
    demoStep5.barrier = true :=
  ⟨startAllThreads_idempotent.1 demoInit,
   startAllThreads_idempotent.2.1 demoInit, by decide,
   startAllThreads_idempotent.2.2 demoAfterStart demoStep5 (.wBarrier 1)
     (by decide) (by decide)⟩

/-- Claim C8: the created-signal objects of distinct handles are distinct
kernel objects (the fixed event name notwithstanding — their lifetimes
never overlap, so `CreateEvent` always allocates fresh); per incarnation
the created-signal is signaled at most (and, once the worker is past the
handshake, exactly) once by its own spawned thread, waited on exactly
once by the creating thread, and after `create()` returns the handle
member is invalidated and the object destroyed. -/
theorem created_signal_exclusive (syncs : List Bool) (script : List Cmd)
    (s : Sys) (hreach : Reaches (Sys.mkInit syncs script) s) :
    (∀ (i j : Nat) (ti tj : TW), i ≠ j → s.handles[i]? = some ti →
      s.handles[j]? = some tj → ∀ a b, ti.startedIdHist = some a →
      tj.startedIdHist = some b → a ≠ b) ∧
    (∀ (i : Nat) (t : TW), s.handles[i]? = some t →
      t.startedSignals ≤ 1 ∧ t.startedWaits ≤ 1 ∧
      (pastStart t.wpc = true → t.startedSignals = 1) ∧
      (t.createdOk = true → t.startedWaits = 1 ∧ t.hThreadStarted = none ∧
        ∀ id, t.startedIdHist = some id → s.kernel.objAt id = none)) := by
  have hinv := reaches_inv hreach
  refine ⟨hinv.distinct, ?_⟩
  intro i t ht
  have hold := hinv.hinv i t ht
  refine ⟨?_, ?_, ?_, ?_⟩
  · rw [hold.signals_count]
    split <;> omega
  · rw [hold.waits_count]
    split <;> omega
  · intro hp
    rw [hold.signals_count, hp]
    simp
  · intro hok
    refine ⟨?_, hold.ok_closed hok, hold.ok_hist_dead hok⟩
    rw [hold.waits_count, hok]
    simp

/-- Claim C8 witness: in the demo run the two workers' created-signal
objects are the distinct kernel objects 0 and 1, each signaled and waited
on exactly once and destroyed after the handshake. -/
theorem created_signal_exclusive_witness :
    Reaches demoInit demoAfterCreates ∧
    demoAfterCreates.handles[0]? = some demoT8a ∧
    demoAfterCreates.handles[1]? = some demoT8b ∧
    demoT8a.startedIdHist = some 0 ∧ demoT8b.startedIdHist = some 1 ∧
    (0 : Nat) ≠ 1 ∧
    demoT8a.startedSignals = 1 ∧ demoT8a.startedWaits = 1 ∧
    demoT8a.hThreadStarted = none ∧
    demoAfterCreates.kernel.objAt 0 = none :=
  ⟨⟨dActsCreates, rfl⟩, by decide, by decide, by decide, by decide,
   (created_signal_exclusive [true, true] demoScript demoAfterCreates
     ⟨dActsCreates, rfl⟩).1 0 1 demoT8a demoT8b (by decide) (by decide)
     (by decide) 0 1 (by decide) (by decide),
   by decide, by decide, by decide,
   (((created_signal_exclusive [true, true] demoScript demoAfterCreates
     ⟨dActsCreates, rfl⟩).2 0 demoT8a (by decide)).2.2.2 (by decide)).2.2 0
     (by decide)⟩

/-- Claim C7: in every reachable state of every execution, when the work
loop has returned (the worker stands at the final
`SetEvent(m_hThreadExited)`), the exit-signal member refers to a live
kernel object — the work loop only returns via the stop message, which
`ExitThread` posts only after lazily creating the object — and the signal
step is enabled, succeeds without invoking the fault collaborator, leaves
the manual-reset object signaled, and releases the `ExitThread` waiter
(its wait step is enabled), even if that waiter had not yet started
waiting. -/
theorem exit_signal_valid (syncs : List Bool) (script : List Cmd) (s : Sys)
    (hreach : Reaches (Sys.mkInit syncs script) s) (i : Nat) (t : TW)
    (ht : s.handles[i]? = some t) (hpc : t.wpc = some .sigExited) :
    ∃ id, t.hThreadExited = some id ∧ s.kernel.objAt id ≠ none ∧
      (step s (.wSigExited i)).isSome = true ∧
      ∀ s2, step s (.wSigExited i) = some s2 →
        s2.fault = s.fault ∧ s2.kernel.signaledAt id = true ∧
        (step s2 .cFinishExit).isSome = true := by
  have hinv := reaches_inv hreach
  have hold := hinv.hinv i t ht
  cases hex : t.hThreadExited with
  | none => exact absurd hpc (hold.exit_stage.1 hex).2.2
  | some id =>
    obtain ⟨h1, hdisj⟩ := hold.exit_stage.2 id hex
    have ho : s.kernel.objAt id = some false := by
      rcases hdisj with ⟨_, _, hse, _, _⟩ | ⟨_, ⟨p, hp2⟩, _⟩ | ⟨_, _, hob⟩ |
        ⟨_, hpd, _⟩
      · exact absurd hpc hse
      · rw [hpc] at hp2
        simp at hp2
      · exact hob
      · rw [hpc] at hpd
        simp at hpd
    have hlt : id < s.kernel.objs.length := Kernel.objAt_lt ho
    have hlenh : i < s.handles.length := getH_lt ht
    obtain ⟨rest, hscr⟩ : ∃ rest, s.script = .exitTh i :: rest := by
      have hs := hinv.script_ok
      unfold ScriptOk at hs
      rw [h1] at hs
      exact hs
    have hstep : step s (.wSigExited i) = some
        { (s.setH i { t with wpc := some .done }) with
          kernel := { s.kernel with objs := s.kernel.objs.set id (some true) },
          fault := s.fault } := by
      simp only [step, ht]
      rw [if_pos hpc, hex]
      rw [show s.kernel.setEventH (some id) =
          ({ s.kernel with objs := s.kernel.objs.set id (some true) }, true) from by
        simpa [Kernel.setEventH] using Kernel.setEvent_live ho]
      simp
    refine ⟨id, rfl, by rw [ho]; simp, by rw [hstep]; rfl, ?_⟩
    intro s2 hs2
    rw [hstep] at hs2
    obtain rfl := (Option.some.inj hs2).symm
    have hsig2 : Kernel.signaledAt
        { s.kernel with objs := s.kernel.objs.set id (some true) } id = true := by
      simp only [Kernel.signaledAt]
      rw [show Kernel.objAt
          { s.kernel with objs := s.kernel.objs.set id (some true) } id =
          some true from objAt_set_self hlt (some true)]
      simp
    refine ⟨rfl, hsig2, ?_⟩
    simp only [step]
    simp [Sys.setH, h1, hscr, List.getElem?_set_self, hlenh, hex, hsig2]

/-- Claim C7 witness: in the demo run, worker 0 reaches the final
`SetEvent` with its exit-signal object (kernel object 2) live; the signal
succeeds with no fault, leaves the object signaled and enables the
`ExitThread` wait to complete. -/
theorem exit_signal_valid_witness :
    Reaches demoInit demoAtSigExit ∧
    demoAtSigExit.handles[0]? = some demoT7 ∧
    demoT7.wpc = some .sigExited ∧
    demoT7.hThreadExited = some 2 ∧
    demoAtSigExit.kernel.objAt 2 ≠ none ∧
    step demoAtSigExit (.wSigExited 0) = some demoAfterSig ∧
    demoAfterSig.fault = demoAtSigExit.fault ∧
    demoAfterSig.kernel.signaledAt 2 = true ∧
    (step demoAfterSig .cFinishExit).isSome = true := by
  obtain ⟨id, hid, hno, hen, hall⟩ := exit_signal_valid [true, true] demoScript
    demoAtSigExit ⟨dActsExit0, rfl⟩ 0 demoT7 (by decide) (by decide)
  have hid2 : id = 2 := by
    have h2 : demoT7.hThreadExited = some 2 := by decide
    rw [h2] at hid
    exact (Option.some.inj hid).symm
  subst hid2
  obtain ⟨hf, hsg, hfe⟩ := hall demoAfterSig (by decide)
  exact ⟨⟨dActsExit0, rfl⟩, by decide, by decide, hid, hno, by decide, hf, hsg, hfe⟩

/-- Claim C9: round trip — what the work loop has processed, what it holds,
and what is still queued is, in order, exactly the sequence of payloads
posted to this handle, and the posted payloads are pairwise distinct; so
every posted payload is received at most once, unchanged and in FIFO
order, and exactly once when the queue has drained.  (The payload is
touched after enqueue only by the worker's own processing step, which
also releases it.) -/
theorem work_item_round_trip (syncs : List Bool) (script : List Cmd) (s : Sys)
    (hreach : Reaches (Sys.mkInit syncs script) s) (i : Nat) (t : TW)
    (ht : s.handles[i]? = some t) :
    t.delivered ++ inHand t ++ workPayloads t.queue = t.posted ∧
    t.posted.Nodup := by
  have hold := (reaches_inv hreach).hinv i t ht
  exact ⟨hold.acct, hold.posted_nodup⟩

/-- Claim C9 witness: in the demo run, worker 0 has processed exactly
payload 5, the one payload posted to it. -/
theorem work_item_round_trip_witness :
    Reaches demoInit demoMid ∧ demoMid.handles[0]? = some demoT9 ∧
    demoT9.posted = [5] ∧ demoT9.delivered = [5] ∧
    demoT9.delivered ++ inHand demoT9 ++ workPayloads demoT9.queue =
      demoT9.posted ∧ demoT9.posted.Nodup :=
  ⟨⟨dActsMid, rfl⟩, by decide, by decide, by decide,
   (work_item_round_trip [true, true] demoScript demoMid ⟨dActsMid, rfl⟩ 0
     demoT9 (by decide)).1,
   (work_item_round_trip [true, true] demoScript demoMid ⟨dActsMid, rfl⟩ 0
     demoT9 (by decide)).2⟩

end SysModel

namespace SeqModel

/-- Claim C3 (amended): `CreateThread`, when the handle is not already
created, performs the spawn and then blocks on the handshake wait
(modelled by the `waitOk` outcome parameter); with a successful spawn and
wait it returns TRUE with no fault; on spawn failure it signals a fatal
condition and returns FALSE; but on a handshake-wait timeout it signals
the fatal condition and still returns TRUE whenever the spawn succeeded,
because the fall-through `return m_hThread ? TRUE : FALSE` tests only the
thread handle. -/
theorem createThread_fault_and_return (s : AState) (spawnOk waitOk : Bool)
    (h : isCreated s = false) :
    (createThread s spawnOk waitOk).2 = spawnOk ∧
    ((createThread s spawnOk waitOk).1.faults = s.faults ↔
      (spawnOk = true ∧ waitOk = true)) := by
  cases spawnOk <;> cases waitOk <;>
    simp [createThread, assertTrue, h] <;> omega

/-- Claim C3 counterexample: handle not created, spawn succeeds, handshake
wait times out — `CreateThread` invokes the fault collaborator and yet
returns TRUE, not failure as the claim states. -/
theorem createThread_timeout_returns_true :
    isCreated AState.unborn = false ∧
    (createThread AState.unborn true false).1.faults = 1 ∧
    (createThread AState.unborn true false).2 = true := by
  decide

/-- Claim C3 witness: the normal path at a concrete unborn handle. -/
theorem createThread_fault_and_return_witness :
    isCreated AState.unborn = false ∧
    (createThread AState.unborn true true).2 = true ∧
    ((createThread AState.unborn true true).1.faults = AState.unborn.faults ↔
      (true = true ∧ true = true)) :=
  ⟨by decide,
   (createThread_fault_and_return AState.unborn true true (by decide)).1,
   (createThread_fault_and_return AState.unborn true true (by decide)).2⟩

/-- Claim C4: `ExitThread` is idempotent — on an already-Terminated
handle (`m_hThread == INVALID_HANDLE_VALUE`) it is a no-op, and a second
call after any first call leaves the state exactly as the first call
left it, so in particular the `CloseHandle` count is unchanged (no
double-close of the thread handle or the exit-signal object). -/
theorem exitThread_idempotent :
    (∀ (s : AState) (b1 b2 : Bool),
      exitThread (exitThread s b1) b2 = exitThread s b1) ∧
    (∀ (s : AState) (b : Bool), s.hThread = .invalid → exitThread s b = s) := by
  constructor
  · intro s b1 b2
    by_cases h : s.hThread = HandleVal.invalid
    · simp [exitThread, h]
    · cases b1 <;> cases b2 <;> simp [exitThread, h]
  · intro s b h
    simp [exitThread, h]

/-- Claim C4 witness: concrete idempotence at a created handle and the
no-op on a handle that owns no thread. -/
theorem exitThread_idempotent_witness :
    exitThread (exitThread AState.created false) true =
      exitThread AState.created false ∧
    AState.unborn.hThread = .invalid ∧
    exitThread AState.unborn true = AState.unborn :=
  ⟨exitThread_idempotent.1 AState.created false true, by decide,
   exitThread_idempotent.2 AState.unborn true (by decide)⟩

/-- Claim C6: when the exit-signal wait inside `ExitThread` times out,
`TerminateThread` is invoked and teardown still completes — the stop
message was posted, both `CloseHandle` calls run, and both the thread
handle and the exit-signal member end up invalid (state Terminated); the
timeout is not surfaced as a failure (no fault is raised on this path). -/
theorem exitThread_timeout_cleanup (s : AState) (h : s.hThread ≠ .invalid) :
    (exitThread s true).terminations = s.terminations + 1 ∧
    (exitThread s true).hThread = .invalid ∧
    (exitThread s true).hThreadExited = .invalid ∧
    (exitThread s true).closes = s.closes + 2 ∧
    (exitThread s true).exitPosts = s.exitPosts + 1 ∧
    (exitThread s true).faults = s.faults := by
  simp [exitThread, h]

/-- Claim C6 witness: the timeout path at a concrete created handle. -/
theorem exitThread_timeout_cleanup_witness :
    AState.created.hThread ≠ .invalid ∧
    (exitThread AState.created true).terminations =
      AState.created.terminations + 1 ∧
    (exitThread AState.created true).hThread = .invalid ∧
    (exitThread AState.created true).closes = AState.created.closes + 2 :=
  ⟨by decide,
   (exitThread_timeout_cleanup AState.created (by decide)).1,
   (exitThread_timeout_cleanup AState.created (by decide)).2.1,
   (exitThread_timeout_cleanup AState.created (by decide)).2.2.2.1⟩

/-- Claim C10: calling `CreateThread` on a handle that is already created
returns FALSE and leaves the entire state unchanged — no event is
allocated, no thread is spawned, no fault is raised, and the thread
handle and identifier are untouched. -/
theorem createThread_on_created_noop (s : AState) (spawnOk waitOk : Bool)
    (h : isCreated s = true) :
    createThread s spawnOk waitOk = (s, false) := by
  simp [createThread, h]

/-- Claim C10 witness: at a concrete created handle. -/
theorem createThread_on_created_noop_witness :
    isCreated AState.created = true ∧
    createThread AState.created true true = (AState.created, false) :=
  ⟨by decide, createThread_on_created_noop AState.created true true (by decide)⟩

end SeqModel

end ThreadWin
